import Mathlib

/-!
Shallow embedding of the Deuz-Chat "Deep Search" subsystem.

The embedding covers, faithfully to the TypeScript source:
  * the deep-search API route (`POST`, `createResearchPlan`, `executeWebSearch`,
    `analyzeResults`, `categorizeSource`, the snapshot object `planLinksData`
    and the database writes) — src/unnamed/part_004 (the variant that persists
    `research_plan_links`; src/unnamed/part_003 shares the same control flow);
  * the client hook (`handleServerEvent`, `addUpdate`, `updateProgress`,
    `recoverFromDatabase`, `DeepSearchState`) — src/unnamed/part_000.

External adapters (the DeepSeek generative model, the Tavily web search, the
Supabase row store, URL parsing and wall-clock time) are modelled as an
`Oracle` of outcomes; the code under study is deterministic given the oracle.
Nondeterministic identifiers and timestamps (`Date.now()`, `Math.random()`,
`new Date().toISOString()`) are omitted from the embedded records: no claim
depends on them.
-/

namespace DeuzChat

/-- JavaScript `Math.round` on an exact rational: the floor of `q + 1/2`
(round half toward plus infinity), computed on the numerator and denominator so
that the kernel can evaluate it: `floor(q + 1/2) = fdiv(2*num + den, 2*den)`. -/
def jsRound (q : Rat) : Int := (2 * q.num + q.den).fdiv (2 * q.den)

/-- JavaScript `x || d` for numbers: `0` is falsy. -/
def jsOrRat (x d : Rat) : Rat := if x = 0 then d else x

/-- JavaScript `s || d` for strings: the empty string is falsy. -/
def jsOrStr (s d : String) : String := if s = "" then d else s

/-- JavaScript `String.prototype.includes`: `t` occurs in `s` iff splitting on `t`
yields more than one part (all patterns used by the source are nonempty). -/
def jsIncludes (s t : String) : Bool := (s.splitOn t).length > 1

/-- JavaScript `[...new Set(l)]`: drop duplicates, keeping first occurrences in order. -/
def jsSetDedup (l : List String) : List String :=
  l.foldl (fun acc d => if acc.contains d then acc else acc ++ [d]) []

/-- Research status values: `research_status` in the row and `status` in the hook state. -/
inductive RStatus
  | planning
  | searching
  | analyzing
  | complete
deriving DecidableEq, Repr

/-- Step status values used by `ResearchUpdate` and the snapshot records. -/
inductive StepStatus
  | pending
  | running
  | completed
  | error
  | failed
deriving DecidableEq, Repr

/-- One entry of `ResearchPlanSchema.searches` (the `type:'web'` literal is constant). -/
structure SearchSpec where
  priority : Int
  query : String
deriving DecidableEq, Repr

/-- One entry of `ResearchPlanSchema.analyses`. -/
structure AnalysisSpec where
  type : String
  description : String
  priority : Int
deriving DecidableEq, Repr

/-- The plan object produced by `createResearchPlan` (validated by `ResearchPlanSchema`:
exactly 5 searches, exactly 5 analyses, priorities 1..5). -/
structure ResearchPlan where
  searches : List SearchSpec
  analyses : List AnalysisSpec
deriving DecidableEq, Repr

/-- Validity enforced by the zod schema `ResearchPlanSchema` on any plan that
`generateObject` returns without throwing. -/
def planSchemaOk (p : ResearchPlan) : Prop :=
  p.searches.length = 5 ∧ p.analyses.length = 5 ∧
  (∀ s ∈ p.searches, 1 ≤ s.priority ∧ s.priority ≤ 5) ∧
  (∀ a ∈ p.analyses, 1 ≤ a.priority ∧ a.priority ≤ 5)

/-- A raw result item from the Tavily client (`searchResults.results` fields used). -/
structure TavilyResult where
  title : String
  url : String
  content : String
deriving DecidableEq, Repr

/-- A normalized result as produced by `executeWebSearch` (`source: 'web'` constant). -/
structure NormalizedResult where
  source : String
  title : String
  url : String
  content : String
deriving DecidableEq, Repr

/-- The options object `executeWebSearch` passes to `tvly.search`. -/
structure TavilyOpts where
  searchDepth : String
  includeAnswer : Bool
  maxResults : Int
deriving DecidableEq, Repr

/-- The return value of `executeWebSearch` (fields `type`, `query:{query,priority}`,
`results`, optional `error`). -/
structure SearchOutcome where
  type : String
  queryEcho : String
  priorityEcho : Int
  results : List NormalizedResult
  errorMsg : Option String
deriving DecidableEq, Repr

/-- A `{title, url}` pair (plan-link sources, finding source links). -/
structure SourceLink where
  title : String
  url : String
deriving DecidableEq, Repr

/-- A key source of an analysis (`AnalysisResultSchema.key_sources` entry). -/
structure KeySource where
  title : String
  url : String
  relevance : Rat
deriving DecidableEq, Repr

/-- One finding of an analysis (`AnalysisResultSchema.findings` entry). -/
structure Finding where
  insight : String
  evidence : List String
  confidence : Rat
  source_links : List SourceLink
deriving DecidableEq, Repr

/-- The object `analyzeResults` returns (validated by `AnalysisResultSchema`). -/
structure AnalysisResult where
  findings : List Finding
  implications : List String
  limitations : List String
  key_sources : List KeySource
deriving DecidableEq, Repr

/-- One element of `analysisResults` as accumulated by the route
(`{type, description, result}`). -/
structure AnalysisEntry where
  type : String
  description : String
  result : AnalysisResult
deriving DecidableEq, Repr

/-- One resolved link inside a snapshot search record (`found_at` timestamp omitted). -/
structure LinkRecord where
  title : String
  url : String
  relevance : Rat
  domain : String
deriving DecidableEq, Repr

/-- One element of `planLinksData.searches`. -/
structure SearchLinkRecord where
  step : Nat
  query : String
  priority : Int
  links : List LinkRecord
  status : StepStatus
  result_count : Nat
deriving DecidableEq, Repr

/-- One element of `planLinksData.analyses`. -/
structure AnalysisLinkRecord where
  step : Nat
  type : String
  description : String
  key_sources : List KeySource
  findings_count : Nat
  status : StepStatus
deriving DecidableEq, Repr

/-- The durable snapshot object `planLinksData` (`plan_id` and `created_at` omitted:
nondeterministic identifier and timestamp). -/
structure PlanLinksData where
  searches : List SearchLinkRecord
  analyses : List AnalysisLinkRecord
  total_links : Nat
  unique_domains : List String
  completion_rate : Int
deriving DecidableEq, Repr

/-- The snapshot as initialized right after planning. -/
def initPlanLinks : PlanLinksData :=
  { searches := [], analyses := [], total_links := 0, unique_domains := [], completion_rate := 0 }

/-- A citation entry (`{title, url, relevance}`) as carried by `allSources` and
`report_complete.sources`; `relevance` is always assigned by the route. -/
structure Source where
  title : String
  url : String
  relevance : Rat
deriving DecidableEq, Repr

/-- One persisted `citation_sources` entry (route final update). -/
structure CitationSource where
  id : Nat
  title : String
  url : String
  domain : String
  relevance : Rat
  category : String
deriving DecidableEq, Repr

/-- The step-specific `data` payload of a `step_complete` frame or a recovered update.
`search` and `analysis` are the live payloads; `analysisRecovered` is the payload
synthesized by `recoverFromDatabase`, which omits `insights`. -/
inductive StepData
  | search (query : String) (resultCount : Nat) (sources : List SourceLink)
  | analysis (type : String) (findingsCount : Nat) (insights : List String)
      (keyLinks : List KeySource)
  | analysisRecovered (type : String) (findingsCount : Nat) (keyLinks : List KeySource)
deriving DecidableEq, Repr

/-- One serialized server-sent frame (`sendUpdate`); the `timestamp` field is omitted.
`step_start` always carries `status:'running'`; `error` always carries `step:'Unknown'`. -/
inductive Frame
  | step_start (step : Nat) (title : String) (description : String)
  | step_complete (step : Nat) (title : String) (description : String)
      (status : StepStatus) (data : Option StepData)
  | research_plan (plan : ResearchPlan) (totalSteps : Nat)
  | progress (value : Int)
  | status_change (status : RStatus)
  | report_chunk (chunk : String)
  | report_complete (fullReport : String) (sources : List Source)
  | error (message : String)
deriving DecidableEq, Repr

/-- A client-side `ResearchUpdate` (`id` and `timestamp` omitted: generated from
`Date.now()` and `Math.random()`). -/
structure ResearchUpdate where
  step : Nat
  title : String
  description : String
  status : StepStatus
  data : Option StepData
deriving DecidableEq, Repr

/-- The hook's `DeepSearchState`. -/
structure DeepSearchState where
  isActive : Bool
  progress : Int
  status : RStatus
  updates : List ResearchUpdate
  result : Option String
  error : Option String
  researchPlan : Option ResearchPlan
  finalSources : Option (List Source)
  planLinks : Option PlanLinksData
deriving DecidableEq, Repr

/-- The hook's initial (and reset) state. -/
def initialDeepSearchState : DeepSearchState :=
  { isActive := false, progress := 0, status := .planning, updates := [], result := none,
    error := none, researchPlan := none, finalSources := none, planLinks := none }

/-- Phase assigned by the `step_start` case of `handleServerEvent`. -/
def stepPhase (step : Nat) : RStatus :=
  if step = 1 then .planning else if step ≤ 6 then .searching else .analyzing

/-- The client progress reducer: one application of `handleServerEvent` to one frame.
Mirrors the `switch` of src/unnamed/part_000 lines 176-268 case by case. -/
def handleServerEvent (s : DeepSearchState) (f : Frame) : DeepSearchState :=
  match f with
  | .step_start step title description =>
      let u : ResearchUpdate :=
        { step := step, title := title, description := description,
          status := .running, data := none }
      let s' := { s with updates := s.updates ++ [u] }
      { s' with status := stepPhase step }
  | .step_complete step _title description _status data =>
      { s with updates := s.updates.map fun u =>
          if u.step = step then
            { u with status := .completed, description := description, data := data }
          else u }
  | .research_plan plan _totalSteps => { s with researchPlan := some plan }
  | .progress v => { s with progress := min 100 (max 0 v) }
  | .status_change st => { s with status := st }
  | .report_chunk c => { s with result := some ((s.result.getD "") ++ c) }
  | .report_complete fullReport sources =>
      { s with result := some fullReport, finalSources := some sources,
               isActive := false, progress := 100, status := .complete }
  | .error message =>
      { s with error := some message, isActive := false, status := .complete }

/-- Folding a frame sequence through the client progress reducer. -/
def foldFrames (s : DeepSearchState) (l : List Frame) : DeepSearchState :=
  l.foldl handleServerEvent s

/-- The persisted assistant-message row fields the deep-search feature reads and
writes (`research_steps`, which is only ever written as a constant object, and the
chat metadata columns are omitted). -/
structure MessageRow where
  content : String
  research_plan : Option ResearchPlan
  search_results : Option (List SearchOutcome)
  analysis_results : Option (List AnalysisEntry)
  research_status : Option RStatus
  research_progress : Option Int
  research_plan_links : Option PlanLinksData
  citation_sources : Option (List CitationSource)
deriving DecidableEq, Repr

/-- The mapping `recoverFromDatabase` applies to each persisted citation entry
(`{title, url, relevance: source.relevance || 0.7}`). -/
def citationToSource (c : CitationSource) : Source :=
  { title := c.title, url := c.url, relevance := jsOrRat c.relevance (mkRat 7 10) }

/-- The recovery reconstructor `recoverFromDatabase` (src/unnamed/part_000 lines
302-401): given the persisted row (or `none`) and the current hook state, returns
the boolean result and the next hook state. -/
def recoverFromDatabase (md : Option MessageRow) (prev : DeepSearchState) :
    Bool × DeepSearchState :=
  match md with
  | none => (false, prev)
  | some row =>
    match row.research_plan_links with
    | none => (false, prev)
    | some links =>
      let planStep : ResearchUpdate :=
        { step := 1, title := "Research Planning",
          description := "Research plan created successfully",
          status := .completed, data := none }
      let planSteps : List ResearchUpdate :=
        match row.research_plan with
        | some _ => [planStep]
        | none => []
      let searchSteps : List ResearchUpdate := links.searches.map fun s =>
        { step := s.step, title := "Web Search " ++ toString (s.step - 1),
          description := "Found " ++ toString s.result_count ++ " sources for \"" ++
            s.query ++ "\"",
          status := s.status,
          data := some (.search s.query s.result_count
            ((s.links.take 4).map fun l => { title := l.title, url := l.url })) }
      let analysisSteps : List ResearchUpdate := links.analyses.map fun a =>
        { step := a.step,
          title := "Analysis " ++ toString (a.step - 6) ++ ": " ++ a.type,
          description := "Analysis completed - " ++ toString a.findings_count ++
            " key findings",
          status := a.status,
          data := some (.analysisRecovered a.type a.findings_count (a.key_sources.take 4)) }
      let reportStep : ResearchUpdate :=
        { step := 12, title := "Final Report Generation",
          description := "Report generated successfully",
          status := .completed, data := none }
      let reportSteps : List ResearchUpdate :=
        if row.research_status = some .complete ∧ row.content ≠ "" then [reportStep]
        else []
      (true,
       { isActive := row.research_status ≠ some .complete,
         progress := row.research_progress.getD 0,
         status := row.research_status.getD .planning,
         updates := planSteps ++ searchSteps ++ analysisSteps ++ reportSteps,
         result := if row.content = "" then none else some row.content,
         error := none,
         researchPlan := row.research_plan,
         finalSources :=
           match row.citation_sources with
           | some cs =>
             if cs.length > 0 then some (cs.map citationToSource)
             else none
           | none => none,
         planLinks := some links })

/-- Outcomes of the external adapters for one run. `tavilySearch` and
`analyzeOutcome` are indexed by the sequential call number; `reportCall` is the
outcome of `await streamText(...)`, `reportChunks` the fragments the text stream
yields, and `streamEnd` the outcome of the `for await` loop after all fragments.
`host` models `new URL(u).hostname`; `insertOk` models whether the initial
Supabase insert returned an assistant message id. -/
structure Oracle where
  planOutcome : Except String ResearchPlan
  tavilySearch : Nat → String → TavilyOpts → Except String (List TavilyResult)
  analyzeOutcome : Nat → Except String AnalysisResult
  reportCall : Except String Unit
  reportChunks : List String
  streamEnd : Except String Unit
  host : String → String
  insertOk : Bool

/-- The options `executeWebSearch` builds for `tvly.search`
(src/unnamed/part_004 lines 522-528): depth passthrough, `includeAnswer: true`,
`maxResults: Math.max(4, Math.min(8 - priority, 12))`. -/
def searchOpts (depth : String) (priority : Int) : TavilyOpts :=
  { searchDepth := if depth = "advanced" then "advanced" else "basic",
    includeAnswer := true,
    maxResults := max 4 (min (8 - priority) 12) }

/-- The search step adapter `executeWebSearch` (src/unnamed/part_004 lines 519-549):
calls the Tavily client, normalizes results; a throw is caught and converted into
an empty result list plus an `error` message field. -/
def executeWebSearch (call : String → TavilyOpts → Except String (List TavilyResult))
    (query : String) (depth : String) (priority : Int) : SearchOutcome :=
  match call query (searchOpts depth priority) with
  | .ok rs =>
      { type := "web", queryEcho := query, priorityEcho := priority,
        results := rs.map fun r =>
          { source := "web", title := r.title, url := r.url, content := r.content },
        errorMsg := none }
  | .error e =>
      { type := "web", queryEcho := query, priorityEcho := priority,
        results := [], errorMsg := some e }

/-- Source categorization for persisted citations (src/unnamed/part_004 lines 569-580). -/
def categorizeSource (title url : String) (host : String → String) : String :=
  let domain := (host url).toLower
  let titleLower := title.toLower
  if jsIncludes domain "academic" || jsIncludes domain "edu" || jsIncludes domain "research"
    then "academic"
  else if jsIncludes domain "news" || jsIncludes domain "bbc" || jsIncludes domain "reuters"
    then "news"
  else if jsIncludes domain "gov" || jsIncludes domain "official" then "official"
  else if jsIncludes titleLower "study" || jsIncludes titleLower "research" then "research"
  else if jsIncludes titleLower "analysis" || jsIncludes titleLower "report" then "analysis"
  else "general"

/-- Appending one completed search to the snapshot (src/unnamed/part_004 lines
169-189): push the search record, add the result count to `total_links`, and
union the new domains into `unique_domains`. -/
def appendSearch (snap : PlanLinksData) (stepNumber : Nat) (spec : SearchSpec)
    (out : SearchOutcome) (host : String → String) : PlanLinksData :=
  let links : List LinkRecord := out.results.map fun r =>
    { title := r.title, url := r.url, relevance := mkRat 8 10, domain := host r.url }
  { snap with
    searches := snap.searches ++
      [{ step := stepNumber, query := spec.query, priority := spec.priority,
         links := links, status := .completed, result_count := out.results.length }],
    total_links := snap.total_links + out.results.length,
    unique_domains := jsSetDedup (snap.unique_domains ++ out.results.map fun r => host r.url) }

/-- Progress after completing search step `stepNumber`
(src/unnamed/part_004 line 207): `Math.round(stepNumber / totalSteps * 70)` with
`totalSteps = 5 + plan.analyses.length`. -/
def searchProgress (stepNumber totalSteps : Nat) : Int :=
  jsRound (mkRat (stepNumber * 70) totalSteps)

/-- Progress after completing the `idx`-th analysis, 1-based
(src/unnamed/part_004 line 276): `Math.round(70 + (idx / len) * 25)`. -/
def analysisProgress (idx len : Nat) : Int :=
  jsRound (mkRat (70 * len + idx * 25) len)

/-- Snapshot completion rate after the `idx`-th analysis, 1-based
(src/unnamed/part_004 line 260). -/
def completionRate (idx len : Nat) : Int :=
  jsRound (mkRat (idx * 100) len)

/-- The `step_start` frame of the search step with loop index `i`. -/
def searchStartFrame (i : Nat) (spec : SearchSpec) : Frame :=
  Frame.step_start (i + 2) ("Web Search " ++ toString (i + 1))
    ("Searching: \"" ++ spec.query ++ "\"")

/-- The `step_complete` frame of the search step with loop index `i`: always
status `completed` (a throwing Tavily call was already absorbed by
`executeWebSearch` into an empty result list). -/
def searchCompleteFrame (o : Oracle) (depth : String) (i : Nat) (spec : SearchSpec) :
    Frame :=
  let out := executeWebSearch (o.tavilySearch i) spec.query depth spec.priority
  Frame.step_complete (i + 2) ("Web Search " ++ toString (i + 1))
    ("Found " ++ toString out.results.length ++ " sources") .completed
    (some (.search spec.query out.results.length
      ((out.results.take 4).map fun r => { title := r.title, url := r.url })))

/-- The `step_start` frame of the analysis step with loop index `i`. -/
def analysisStartFrame (i : Nat) (spec : AnalysisSpec) : Frame :=
  Frame.step_start (7 + i) ("Analysis " ++ toString (i + 1) ++ ": " ++ spec.type)
    spec.description

/-- The `step_complete` frame of the analysis step with loop index `i`. -/
def analysisCompleteFrame (i : Nat) (spec : AnalysisSpec) (res : AnalysisResult) : Frame :=
  Frame.step_complete (7 + i) ("Analysis " ++ toString (i + 1) ++ ": " ++ spec.type)
    ("Analysis completed - " ++ toString res.findings.length ++ " key findings")
    .completed
    (some (.analysis spec.type res.findings.length
      ((res.findings.take 2).map (·.insight)) (res.key_sources.take 4)))

/-- Result of the search loop: emitted frames, the snapshot, the accumulated
`searchResults` array, and the message row after the last in-loop update. -/
structure SearchPhaseOut where
  frames : List Frame
  snap : PlanLinksData
  souts : List SearchOutcome
  row : Option MessageRow
deriving Repr

/-- The search loop, steps 2-6 (src/unnamed/part_004 lines 150-219). `i` is the
loop index; each iteration emits `step_start`, `step_complete` (always status
`completed`, because `executeWebSearch` never throws), and `progress`, appends to
the snapshot, and persists the row when an assistant message id exists. -/
def searchPhase (o : Oracle) (depth : String) (total : Nat) :
    Nat → List SearchSpec → PlanLinksData → List SearchOutcome → Option MessageRow →
    SearchPhaseOut
  | _i, [], snap, acc, row => { frames := [], snap := snap, souts := acc, row := row }
  | i, spec :: rest, snap, acc, row =>
    let sn := i + 2
    let out := executeWebSearch (o.tavilySearch i) spec.query depth spec.priority
    let snap' := appendSearch snap sn spec out o.host
    let p := searchProgress sn total
    let row' := row.map fun r =>
      { r with search_results := some (acc ++ [out]), research_plan_links := some snap',
               research_status := some .searching, research_progress := some p }
    let tail := searchPhase o depth total (i + 1) rest snap' (acc ++ [out]) row'
    { frames :=
        searchStartFrame i spec :: searchCompleteFrame o depth i spec ::
        Frame.progress p :: tail.frames,
      snap := tail.snap, souts := tail.souts, row := tail.row }

/-- Result of the analysis loop: emitted frames, snapshot, accumulated
`analysisResults`, the row, and the error message if `analyzeResults` threw
(which aborts the run via the outer catch). -/
structure AnalysisPhaseOut where
  frames : List Frame
  snap : PlanLinksData
  entries : List AnalysisEntry
  row : Option MessageRow
  abortMsg : Option String
deriving Repr

/-- The analysis loop, steps 7-11 (src/unnamed/part_004 lines 223-288). A throw
from `analyzeResults` propagates to the outer catch, which emits one `error`
frame; nothing later runs. -/
def analysisPhase (o : Oracle) (len : Nat) :
    Nat → List AnalysisSpec → PlanLinksData → List AnalysisEntry → Option MessageRow →
    AnalysisPhaseOut
  | _i, [], snap, acc, row =>
    { frames := [], snap := snap, entries := acc, row := row, abortMsg := none }
  | i, spec :: rest, snap, acc, row =>
    let sn := 7 + i
    let ssF := analysisStartFrame i spec
    match o.analyzeOutcome i with
    | .error e =>
      { frames := [ssF, Frame.error e], snap := snap, entries := acc, row := row,
        abortMsg := some e }
    | .ok res =>
      let entry : AnalysisEntry :=
        { type := spec.type, description := spec.description, result := res }
      let record : AnalysisLinkRecord :=
        { step := sn, type := spec.type, description := spec.description,
          key_sources := res.key_sources.map fun s =>
            { title := s.title, url := s.url, relevance := jsOrRat s.relevance (mkRat 7 10) },
          findings_count := res.findings.length, status := .completed }
      let snap' :=
        { snap with analyses := snap.analyses ++ [record],
                    completion_rate := completionRate (i + 1) len }
      let p := analysisProgress (i + 1) len
      let row' := row.map fun r =>
        { r with analysis_results := some (acc ++ [entry]),
                 research_plan_links := some snap',
                 research_status := some .analyzing, research_progress := some p }
      let tail := analysisPhase o len (i + 1) rest snap' (acc ++ [entry]) row'
      { frames :=
          ssF :: analysisCompleteFrame i spec res ::
          Frame.progress p :: tail.frames,
        snap := tail.snap, entries := tail.entries, row := tail.row,
        abortMsg := tail.abortMsg }

/-- Adding one search result to the deduplicated citation accumulator
(src/unnamed/part_004 lines 306-319): skipped when the url is falsy or already
seen; first occurrence wins, search sources get relevance 0.8. -/
def pushSearchSource (acc : List Source) (r : NormalizedResult) : List Source :=
  if r.url = "" then acc
  else if acc.any (fun s => s.url == r.url) then acc
  else acc ++ [{ title := jsOrStr r.title "Untitled", url := r.url, relevance := mkRat 8 10 }]

/-- Adding one analysis key source to the accumulator (lines 322-335):
relevance `source.relevance || 0.7`. -/
def pushKeySource (acc : List Source) (s : KeySource) : List Source :=
  if s.url = "" then acc
  else if acc.any (fun t => t.url == s.url) then acc
  else acc ++
    [{ title := jsOrStr s.title "Untitled", url := s.url,
       relevance := jsOrRat s.relevance (mkRat 7 10) }]

/-- The `allSources` citation list: every search result first, then every analysis
key source, deduplicated by url with first occurrence winning. -/
def collectAllSources (souts : List SearchOutcome) (entries : List AnalysisEntry) :
    List Source :=
  let fromSearch := souts.foldl (fun acc out => out.results.foldl pushSearchSource acc) []
  entries.foldl (fun acc e => e.result.key_sources.foldl pushKeySource acc) fromSearch

/-- The persisted `citation_sources` entry built from one `allSources` element and
its index (src/unnamed/part_004 lines 442-449). -/
def mkCitation (host : String → String) (idx : Nat) (s : Source) : CitationSource :=
  { id := idx + 1, title := s.title, url := s.url, domain := host s.url,
    relevance := jsOrRat s.relevance (mkRat 7 10),
    category := categorizeSource s.title s.url host }

/-- Step 12, report generation (src/unnamed/part_004 lines 292-451): collect
citations, call the streaming model, emit `step_complete` for step 12 and
`progress` 95 before forwarding any text fragment, stream the fragments, then
emit `report_complete`, `progress` 100 and `status_change` and persist the final
row. A throw at the `streamText` call or during the fragment loop reaches the
outer catch, which emits one `error` frame. -/
def reportPhase (o : Oracle) (souts : List SearchOutcome) (entries : List AnalysisEntry)
    (snap : PlanLinksData) (row : Option MessageRow) : List Frame × Option MessageRow :=
  let ssF := Frame.step_start 12 "Final Report Generation"
    "Generating comprehensive report with citations..."
  let allSources := collectAllSources souts entries
  match o.reportCall with
  | .error e => ([ssF, Frame.error e], row)
  | .ok _ =>
    let scF := Frame.step_complete 12 "Final Report Generation"
      "Report generated successfully" .completed none
    let head := ssF :: scF :: Frame.progress 95 :: o.reportChunks.map Frame.report_chunk
    match o.streamEnd with
    | .error e => (head ++ [Frame.error e], row)
    | .ok _ =>
      let finalReport := String.join o.reportChunks
      (head ++ [Frame.report_complete finalReport allSources, Frame.progress 100,
        Frame.status_change .complete],
       row.map fun r =>
         { r with content := finalReport, research_status := some .complete,
                  research_progress := some 100,
                  research_plan_links := some { snap with completion_rate := 100 },
                  citation_sources := some (allSources.enum.map fun p =>
                    mkCitation o.host p.1 p.2) })

/-- The `step_start` frame of the planning step. -/
def planningStart : Frame :=
  Frame.step_start 1 "Research Planning" "Creating comprehensive research plan..."

/-- The frames emitted between a successful planning call and the first search
(src/unnamed/part_004 lines 112-122). -/
def runHead (plan : ResearchPlan) : List Frame :=
  [planningStart,
   Frame.step_complete 1 "Research Planning" "Research plan created successfully"
     .completed none,
   Frame.research_plan plan (5 + plan.analyses.length)]

/-- The assistant message row as first inserted (src/unnamed/part_004 lines 124-148). -/
def insertedRow (plan : ResearchPlan) : MessageRow :=
  { content := "", research_plan := some plan,
    search_results := none, analysis_results := none,
    research_status := some .planning, research_progress := some 10,
    research_plan_links := some initPlanLinks, citation_sources := none }

/-- The row as tracked after the insert: `none` when the insert failed
(`assistantMessageId` stayed null and every later update is skipped). -/
def initialRow (o : Oracle) (plan : ResearchPlan) : Option MessageRow :=
  if o.insertOk then some (insertedRow plan) else none

/-- Output of the search loop for a run with the given plan. -/
def runSearchOut (o : Oracle) (depth : String) (plan : ResearchPlan) : SearchPhaseOut :=
  searchPhase o depth (5 + plan.analyses.length) 0 plan.searches initPlanLinks []
    (initialRow o plan)

/-- Output of the analysis loop for a run with the given plan. -/
def runAnalysisOut (o : Oracle) (depth : String) (plan : ResearchPlan) : AnalysisPhaseOut :=
  analysisPhase o plan.analyses.length 0 plan.analyses (runSearchOut o depth plan).snap []
    (runSearchOut o depth plan).row

/-- Output of the report step for a run with the given plan. -/
def runReportOut (o : Oracle) (depth : String) (plan : ResearchPlan) :
    List Frame × Option MessageRow :=
  reportPhase o (runSearchOut o depth plan).souts (runAnalysisOut o depth plan).entries
    (runAnalysisOut o depth plan).snap (runAnalysisOut o depth plan).row

/-- The whole orchestrated run (the `POST` stream body, src/unnamed/part_004 lines
61-463): the returned frame list is everything enqueued before the stream is
closed by the `finally`, and the row is the final persisted assistant message
(none when planning failed before the insert, or when the insert failed). -/
def runResearch (o : Oracle) (depth : String) : List Frame × Option MessageRow :=
  match o.planOutcome with
  | .error e => ([planningStart, Frame.error e], none)
  | .ok plan =>
    match (runAnalysisOut o depth plan).abortMsg with
    | some _ =>
      (runHead plan ++ (runSearchOut o depth plan).frames ++
         (runAnalysisOut o depth plan).frames,
       (runAnalysisOut o depth plan).row)
    | none =>
      (runHead plan ++ (runSearchOut o depth plan).frames ++
         (runAnalysisOut o depth plan).frames ++ (runReportOut o depth plan).1,
       (runReportOut o depth plan).2)

/-- Frames of a run. -/
def runFrames (o : Oracle) (depth : String) : List Frame := (runResearch o depth).1

/-- Final persisted row of a run. -/
def runRow (o : Oracle) (depth : String) : Option MessageRow := (runResearch o depth).2

/-- The client view state after live-folding the whole frame sequence of a run. -/
def liveState (o : Oracle) (depth : String) : DeepSearchState :=
  foldFrames initialDeepSearchState (runFrames o depth)

/-- The client view state rebuilt by the recovery reconstructor from the run's
final persisted row. -/
def recoveredState (o : Oracle) (depth : String) : DeepSearchState :=
  (recoverFromDatabase (runRow o depth) initialDeepSearchState).2

/-- A concrete schema-valid plan used for witnesses. -/
def plan5 : ResearchPlan :=
  { searches :=
      [{ priority := 1, query := "q1" }, { priority := 2, query := "q2" },
       { priority := 3, query := "q3" }, { priority := 4, query := "q4" },
       { priority := 5, query := "q5" }],
    analyses :=
      [{ type := "trend", description := "d1", priority := 1 },
       { type := "impact", description := "d2", priority := 2 },
       { type := "comparative", description := "d3", priority := 3 },
       { type := "risk", description := "d4", priority := 4 },
       { type := "future", description := "d5", priority := 5 }] }

/-- A concrete analysis result with one finding and one key source. -/
def anaResOne : AnalysisResult :=
  { findings := [{ insight := "ins", evidence := [], confidence := mkRat 1 2, source_links := [] }],
    implications := [], limitations := [],
    key_sources := [{ title := "K", url := "http://k.example", relevance := mkRat 1 2 }] }

/-- A concrete analysis result with no findings and no key sources. -/
def anaResEmpty : AnalysisResult :=
  { findings := [], implications := [], limitations := [], key_sources := [] }

/-- A fully successful concrete run: every search returns one result, every
analysis succeeds, the report streams two fragments. -/
def oracleOk : Oracle :=
  { planOutcome := .ok plan5,
    tavilySearch := fun _i _q _opts =>
      .ok [{ title := "T", url := "http://t.example", content := "c" }],
    analyzeOutcome := fun _ => .ok anaResOne,
    reportCall := .ok (),
    reportChunks := ["Hello ", "world"],
    streamEnd := .ok (),
    host := fun u => u,
    insertOk := true }

/-- A successful run in which every search returns zero results and every
analysis reports zero key sources, so no citation is ever collected. -/
def oracleNoSources : Oracle :=
  { oracleOk with tavilySearch := fun _ _ _ => .ok [],
                  analyzeOutcome := fun _ => .ok anaResEmpty }

/-- A run whose planning call throws. -/
def oraclePlanFail : Oracle :=
  { oracleOk with planOutcome := .error "model down" }

/-- Tavily outcomes that throw for call index 2 (search number 3) only. -/
def tavilyFailAtThird (i : Nat) (_q : String) (_opts : TavilyOpts) :
    Except String (List TavilyResult) :=
  if i = 2 then .error "tavily down"
  else .ok [{ title := "T", url := "http://t.example", content := "c" }]

/-- A run in which the Tavily client throws for search number 3 (loop index 2)
only; everything else succeeds. -/
def oracleSearch3Fail : Oracle :=
  { oracleOk with tavilySearch := tavilyFailAtThird }

/-- A run whose second analysis call throws. -/
def oracleAnalysis2Fail : Oracle :=
  { oracleOk with analyzeOutcome := fun i =>
      if i = 1 then .error "analysis down" else .ok anaResOne }

/-- The raw value carried by a `progress` frame. -/
def progressPayload (f : Frame) : Option Int :=
  match f with
  | .progress v => some v
  | _ => none

/-- The ordered list of values carried by the `progress` frames of a sequence. -/
def progressPayloads (l : List Frame) : List Int := l.filterMap progressPayload

/-- The value the reducer writes into `state.progress` on a frame, when it writes one
(`progress` clamps into [0,100]; `report_complete` sets 100). -/
def progEvent (f : Frame) : Option Int :=
  match f with
  | .progress v => some (min 100 (max 0 v))
  | .report_complete _ _ => some 100
  | _ => none

/-- The value the reducer writes into `state.status` on a frame, when it writes one. -/
def statusEvent (f : Frame) : Option RStatus :=
  match f with
  | .step_start step _ _ => some (stepPhase step)
  | .status_change st => some st
  | .report_complete _ _ => some .complete
  | .error _ => some .complete
  | _ => none

/-- The value the reducer writes into `state.finalSources` on a frame, when it writes one. -/
def sourcesEvent (f : Frame) : Option (Option (List Source)) :=
  match f with
  | .report_complete _ sources => some (some sources)
  | _ => none

/-- The value the reducer writes into `state.researchPlan` on a frame, when it writes one. -/
def planEvent (f : Frame) : Option (Option ResearchPlan) :=
  match f with
  | .research_plan plan _ => some (some plan)
  | _ => none

/-- The value the reducer writes into `state.error` on a frame, when it writes one. -/
def errEvent (f : Frame) : Option (Option String) :=
  match f with
  | .error message => some (some message)
  | _ => none

/-- The value the reducer writes into `state.isActive` on a frame, when it writes one. -/
def activeEvent (f : Frame) : Option Bool :=
  match f with
  | .report_complete _ _ => some false
  | .error _ => some false
  | _ => none

/-- Whether a frame is a `step_start` (the only frame kind that appends an update). -/
def isStepStart (f : Frame) : Bool :=
  match f with
  | .step_start _ _ _ => true
  | _ => false

/-- Whether a frame touches `state.result` (`report_chunk` appends, `report_complete` sets). -/
def touchesResult (f : Frame) : Bool :=
  match f with
  | .report_chunk _ => true
  | .report_complete _ _ => true
  | _ => false

/-- Whether a frame is a `report_chunk`. -/
def isReportChunk (f : Frame) : Bool :=
  match f with
  | .report_chunk _ => true
  | _ => false

/-- Whether a frame is an `error` frame. -/
def isErrorFrame (f : Frame) : Bool :=
  match f with
  | .error _ => true
  | _ => false

/-- The frames of the search loop as a function of the specs and the loop index
alone (they do not depend on the threaded snapshot, accumulator or row);
proved equal to `(searchPhase ...).frames` below. -/
def searchFrames (o : Oracle) (depth : String) (total : Nat) :
    Nat → List SearchSpec → List Frame
  | _i, [] => []
  | i, spec :: rest =>
    searchStartFrame i spec :: searchCompleteFrame o depth i spec ::
    Frame.progress (searchProgress (i + 2) total) ::
    searchFrames o depth total (i + 1) rest

/-- The frames of the analysis loop as a function of the specs and the loop index
alone; proved equal to `(analysisPhase ...).frames` below. -/
def analysisFrames (o : Oracle) (len : Nat) : Nat → List AnalysisSpec → List Frame
  | _i, [] => []
  | i, spec :: rest =>
    let ssF := analysisStartFrame i spec
    match o.analyzeOutcome i with
    | .error e => [ssF, Frame.error e]
    | .ok res =>
      ssF :: analysisCompleteFrame i spec res ::
      Frame.progress (analysisProgress (i + 1) len) ::
      analysisFrames o len (i + 1) rest

/-- Whether (and with which message) the analysis loop aborts, as a function of
the specs and the loop index alone. -/
def analysisAbort (o : Oracle) : Nat → List AnalysisSpec → Option String
  | _i, [] => none
  | i, _spec :: rest =>
    match o.analyzeOutcome i with
    | .error e => some e
    | .ok _ => analysisAbort o (i + 1) rest

/-- The `allSources` citation list of a run with the given plan. -/
def runAllSources (o : Oracle) (depth : String) (plan : ResearchPlan) : List Source :=
  collectAllSources (runSearchOut o depth plan).souts (runAnalysisOut o depth plan).entries

/-- The `step_start` frame of the report step. -/
def reportStart : Frame :=
  Frame.step_start 12 "Final Report Generation"
    "Generating comprehensive report with citations..."

/-- The `step_complete` frame of the report step. -/
def reportDone : Frame :=
  Frame.step_complete 12 "Final Report Generation" "Report generated successfully"
    .completed none

/-- The snapshot invariant: `total_links` is the sum of `links.length` over all
search records. -/
def totalLinksOk (snap : PlanLinksData) : Prop :=
  snap.total_links = (snap.searches.map fun r => r.links.length).sum

/-- The number of analysis iterations that complete before the loop ends or
aborts, as a function of the specs and the loop index alone. -/
def analysisDone (o : Oracle) : Nat → List AnalysisSpec → Nat
  | _i, [] => 0
  | i, _spec :: rest =>
    match o.analyzeOutcome i with
    | .error _ => 0
    | .ok _ => analysisDone o (i + 1) rest + 1

/-- Boolean check that an integer list is non-decreasing (kernel-evaluable). -/
def leChainInt : List Int → Bool
  | [] => true
  | [_] => true
  | a :: b :: t => a ≤ b && leChainInt (b :: t)

theorem foldFrames_append (s : DeepSearchState) (l₁ l₂ : List Frame) :
    foldFrames s (l₁ ++ l₂) = foldFrames (foldFrames s l₁) l₂ :=
  List.foldl_append _ _ _ _

theorem handle_progress (s : DeepSearchState) (f : Frame) :
    (handleServerEvent s f).progress = (progEvent f).getD s.progress := by
  cases f <;> simp [handleServerEvent, progEvent]

theorem handle_status (s : DeepSearchState) (f : Frame) :
    (handleServerEvent s f).status = (statusEvent f).getD s.status := by
  cases f <;> simp [handleServerEvent, statusEvent]

theorem handle_finalSources (s : DeepSearchState) (f : Frame) :
    (handleServerEvent s f).finalSources = (sourcesEvent f).getD s.finalSources := by
  cases f <;> simp [handleServerEvent, sourcesEvent]

theorem handle_researchPlan (s : DeepSearchState) (f : Frame) :
    (handleServerEvent s f).researchPlan = (planEvent f).getD s.researchPlan := by
  cases f <;> simp [handleServerEvent, planEvent]

theorem handle_error (s : DeepSearchState) (f : Frame) :
    (handleServerEvent s f).error = (errEvent f).getD s.error := by
  cases f <;> simp [handleServerEvent, errEvent]

theorem handle_isActive (s : DeepSearchState) (f : Frame) :
    (handleServerEvent s f).isActive = (activeEvent f).getD s.isActive := by
  cases f <;> simp [handleServerEvent, activeEvent]

theorem handle_planLinks (s : DeepSearchState) (f : Frame) :
    (handleServerEvent s f).planLinks = s.planLinks := by
  cases f <;> simp [handleServerEvent]

/-- Last-writer description of a projected field of the reducer fold: if each
reducer step writes `(g f)` into the field `π` when that is `some`, the folded
field is the last written value, defaulting to the initial one. -/
theorem foldFrames_field {α : Type} (π : DeepSearchState → α) (g : Frame → Option α)
    (hstep : ∀ s f, π (handleServerEvent s f) = (g f).getD (π s)) :
    ∀ (l : List Frame) (s : DeepSearchState),
      π (foldFrames s l) = (l.filterMap g).getLastD (π s)
  | [], s => by simp [foldFrames]
  | f :: t, s => by
    have ih := foldFrames_field π g hstep t (handleServerEvent s f)
    simp only [foldFrames, List.foldl_cons] at ih ⊢
    rw [ih, List.filterMap_cons]
    cases h : g f with
    | none => rw [hstep s f, h]; rfl
    | some v => rw [hstep s f, h, List.getLastD_cons]; rfl

theorem foldFrames_progress (l : List Frame) (s : DeepSearchState) :
    (foldFrames s l).progress = (l.filterMap progEvent).getLastD s.progress :=
  foldFrames_field _ _ handle_progress l s

theorem foldFrames_status (l : List Frame) (s : DeepSearchState) :
    (foldFrames s l).status = (l.filterMap statusEvent).getLastD s.status :=
  foldFrames_field _ _ handle_status l s

theorem foldFrames_finalSources (l : List Frame) (s : DeepSearchState) :
    (foldFrames s l).finalSources = (l.filterMap sourcesEvent).getLastD s.finalSources :=
  foldFrames_field _ _ handle_finalSources l s

theorem foldFrames_researchPlan (l : List Frame) (s : DeepSearchState) :
    (foldFrames s l).researchPlan = (l.filterMap planEvent).getLastD s.researchPlan :=
  foldFrames_field _ _ handle_researchPlan l s

theorem foldFrames_error (l : List Frame) (s : DeepSearchState) :
    (foldFrames s l).error = (l.filterMap errEvent).getLastD s.error :=
  foldFrames_field _ _ handle_error l s

theorem foldFrames_isActive (l : List Frame) (s : DeepSearchState) :
    (foldFrames s l).isActive = (l.filterMap activeEvent).getLastD s.isActive :=
  foldFrames_field _ _ handle_isActive l s

theorem foldFrames_planLinks (l : List Frame) (s : DeepSearchState) :
    (foldFrames s l).planLinks = s.planLinks := by
  induction l generalizing s with
  | nil => rfl
  | cons f t ih =>
    simp only [foldFrames, List.foldl_cons] at ih ⊢
    rw [ih, handle_planLinks]

theorem getLastD_default_irrel {α : Type} (l : List α) (h : l ≠ []) (d₁ d₂ : α) :
    l.getLastD d₁ = l.getLastD d₂ := by
  cases l with
  | nil => exact absurd rfl h
  | cons a t => rw [List.getLastD_cons, List.getLastD_cons]

/-- Refolding the same frame list does not change a last-writer field. -/
theorem refold_field {α : Type} (π : DeepSearchState → α) (g : Frame → Option α)
    (hstep : ∀ s f, π (handleServerEvent s f) = (g f).getD (π s))
    (l : List Frame) (s : DeepSearchState) :
    π (foldFrames (foldFrames s l) l) = π (foldFrames s l) := by
  rcases eq_or_ne (l.filterMap g) [] with h | h
  · rw [foldFrames_field π g hstep l (foldFrames s l), h]; rfl
  · rw [foldFrames_field π g hstep l (foldFrames s l), foldFrames_field π g hstep l s]
    exact getLastD_default_irrel _ h _ _

theorem handle_updates_length (s : DeepSearchState) (f : Frame) :
    (handleServerEvent s f).updates.length =
      s.updates.length + (if isStepStart f then 1 else 0) := by
  cases f <;> simp [handleServerEvent, isStepStart]

/-- Folding a frame list grows the updates list by exactly the number of
`step_start` frames: `step_complete` replaces in place, nothing removes. -/
theorem foldFrames_updates_length :
    ∀ (l : List Frame) (s : DeepSearchState),
      (foldFrames s l).updates.length = s.updates.length + l.countP isStepStart
  | [], s => by simp [foldFrames]
  | f :: t, s => by
    have ih := foldFrames_updates_length t (handleServerEvent s f)
    simp only [foldFrames, List.foldl_cons] at ih ⊢
    rw [ih, handle_updates_length, List.countP_cons]
    omega

theorem handle_result_untouched (s : DeepSearchState) (f : Frame)
    (h : touchesResult f = false) : (handleServerEvent s f).result = s.result := by
  cases f <;> simp_all [handleServerEvent, touchesResult]

theorem foldFrames_result_untouched :
    ∀ (l : List Frame) (s : DeepSearchState), (∀ f ∈ l, touchesResult f = false) →
      (foldFrames s l).result = s.result
  | [], _, _ => rfl
  | f :: t, s, h => by
    have ih := foldFrames_result_untouched t (handleServerEvent s f)
      (fun g hg => h g (List.mem_cons_of_mem f hg))
    simp only [foldFrames, List.foldl_cons] at ih ⊢
    rw [ih, handle_result_untouched s f (h f (List.mem_cons_self f t))]

/-- After a `report_complete` frame followed only by frames that do not touch the
report text, the folded result is the authoritative full report, whatever the
starting state. -/
theorem foldFrames_result_set (l₁ l₂ : List Frame) (full : String) (srcs : List Source)
    (s : DeepSearchState) (h : ∀ f ∈ l₂, touchesResult f = false) :
    (foldFrames s (l₁ ++ Frame.report_complete full srcs :: l₂)).result = some full := by
  rw [foldFrames_append]
  have : foldFrames (foldFrames s l₁) (Frame.report_complete full srcs :: l₂) =
      foldFrames (handleServerEvent (foldFrames s l₁) (Frame.report_complete full srcs)) l₂ :=
    rfl
  rw [this, foldFrames_result_untouched l₂ _ h]
  rfl

/-- One extension step of prefix folding never decreases the progress field, as
long as the written progress values form a non-decreasing chain from the initial
value. -/
theorem foldFrames_take_progress_step :
    ∀ (l : List Frame) (s : DeepSearchState),
      List.Chain' (· ≤ ·) (s.progress :: l.filterMap progEvent) →
      ∀ n, (foldFrames s (l.take n)).progress ≤ (foldFrames s (l.take (n + 1))).progress
  | [], _, _, n => by simp [foldFrames]
  | f :: t, s, hch, 0 => by
    have h1 : foldFrames s ((f :: t).take 0) = s := rfl
    have h2 : foldFrames s ((f :: t).take 1) = handleServerEvent s f := rfl
    rw [h1, h2, handle_progress]
    cases hgf : progEvent f with
    | none => simp
    | some v =>
      rw [List.filterMap_cons, hgf] at hch
      simpa using (List.chain'_cons.mp hch).1
  | f :: t, s, hch, (n + 1) => by
    have h1 : foldFrames s ((f :: t).take (n + 1)) =
        foldFrames (handleServerEvent s f) (t.take n) := rfl
    have h2 : foldFrames s ((f :: t).take (n + 2)) =
        foldFrames (handleServerEvent s f) (t.take (n + 1)) := rfl
    rw [h1, h2]
    apply foldFrames_take_progress_step t (handleServerEvent s f) _ n
    rw [handle_progress]
    cases hgf : progEvent f with
    | none =>
      rw [List.filterMap_cons, hgf] at hch
      simpa using hch
    | some v =>
      rw [List.filterMap_cons, hgf] at hch
      simpa using (List.chain'_cons.mp hch).2

/-- Prefix-fold monotonicity of the progress field from chained written values. -/
theorem foldFrames_progress_monotone (l : List Frame) (s : DeepSearchState)
    (h : List.Chain' (· ≤ ·) (s.progress :: l.filterMap progEvent)) :
    Monotone fun n => (foldFrames s (l.take n)).progress :=
  monotone_nat_of_le_succ (foldFrames_take_progress_step l s h)

theorem filterMap_report_chunks {α : Type} (g : Frame → Option α)
    (hg : ∀ c, g (.report_chunk c) = none) (chunks : List String) :
    (chunks.map Frame.report_chunk).filterMap g = [] := by
  induction chunks with
  | nil => rfl
  | cons c t ih => simp [List.filterMap_cons, hg, ih]

theorem searchPhase_frames (o : Oracle) (depth : String) (total : Nat)
    (specs : List SearchSpec) (i : Nat) (snap : PlanLinksData)
    (acc : List SearchOutcome) (row : Option MessageRow) :
    (searchPhase o depth total i specs snap acc row).frames =
      searchFrames o depth total i specs := by
  induction specs generalizing i snap acc row with
  | nil => rfl
  | cons spec rest ih =>
    simp only [searchPhase, searchFrames]
    rw [ih]

theorem analysisPhase_frames (o : Oracle) (len : Nat)
    (specs : List AnalysisSpec) (i : Nat) (snap : PlanLinksData)
    (acc : List AnalysisEntry) (row : Option MessageRow) :
    (analysisPhase o len i specs snap acc row).frames = analysisFrames o len i specs := by
  induction specs generalizing i snap acc row with
  | nil => rfl
  | cons spec rest ih =>
    simp only [analysisPhase, analysisFrames]
    cases o.analyzeOutcome i with
    | error e => rfl
    | ok res => simp only []; rw [ih]

theorem analysisPhase_abortMsg (o : Oracle) (len : Nat)
    (specs : List AnalysisSpec) (i : Nat) (snap : PlanLinksData)
    (acc : List AnalysisEntry) (row : Option MessageRow) :
    (analysisPhase o len i specs snap acc row).abortMsg = analysisAbort o i specs := by
  induction specs generalizing i snap acc row with
  | nil => rfl
  | cons spec rest ih =>
    simp only [analysisPhase, analysisAbort]
    cases o.analyzeOutcome i with
    | error e => rfl
    | ok res => simp only []; rw [ih]

/-- The search-loop frames, filtered through any extractor that ignores
`step_start` and `step_complete` and reads every `progress`, are exactly the
per-step progress values. -/
theorem searchFrames_filterMap {α : Type} (o : Oracle) (depth : String) (total : Nat)
    (g : Frame → Option α) (h : Int → α)
    (hss : ∀ st t d, g (.step_start st t d) = none)
    (hsc : ∀ st t d st2 dat, g (.step_complete st t d st2 dat) = none)
    (hp : ∀ v, g (.progress v) = some (h v))
    (specs : List SearchSpec) (i : Nat) :
    (searchFrames o depth total i specs).filterMap g
      = (List.range specs.length).map fun j => h (searchProgress (i + j + 2) total) := by
  induction specs generalizing i with
  | nil => simp [searchFrames]
  | cons spec rest ih =>
    simp only [searchFrames, searchStartFrame, searchCompleteFrame,
      List.filterMap_cons, hss, hsc, hp]
    rw [ih (i + 1), List.length_cons, List.range_succ_eq_map, List.map_cons, List.map_map]
    simp only [Nat.add_zero]
    refine congrArg (List.cons _) (List.map_congr_left fun j _ => ?_)
    simp only [Function.comp_apply]
    have e : i + 1 + j + 2 = i + (j + 1) + 2 := by omega
    rw [e]

theorem searchFrames_cons (o : Oracle) (depth : String) (total i : Nat)
    (spec : SearchSpec) (rest : List SearchSpec) :
    searchFrames o depth total i (spec :: rest) =
      searchStartFrame i spec :: searchCompleteFrame o depth i spec ::
      Frame.progress (searchProgress (i + 2) total) ::
      searchFrames o depth total (i + 1) rest := rfl

theorem analysisFrames_cons_err (o : Oracle) (len i : Nat) (spec : AnalysisSpec)
    (rest : List AnalysisSpec) (e : String) (hout : o.analyzeOutcome i = .error e) :
    analysisFrames o len i (spec :: rest) = [analysisStartFrame i spec, Frame.error e] := by
  simp [analysisFrames, hout]

theorem analysisFrames_cons_ok (o : Oracle) (len i : Nat) (spec : AnalysisSpec)
    (rest : List AnalysisSpec) (res : AnalysisResult)
    (hout : o.analyzeOutcome i = .ok res) :
    analysisFrames o len i (spec :: rest) =
      analysisStartFrame i spec :: analysisCompleteFrame i spec res ::
      Frame.progress (analysisProgress (i + 1) len) ::
      analysisFrames o len (i + 1) rest := by
  simp [analysisFrames, hout]


theorem analysisDone_le (o : Oracle) (specs : List AnalysisSpec) (i : Nat) :
    analysisDone o i specs ≤ specs.length := by
  induction specs generalizing i with
  | nil => exact Nat.le_refl 0
  | cons spec rest ih =>
    simp only [analysisDone]
    cases o.analyzeOutcome i with
    | error e => simp
    | ok res =>
      simp only [List.length_cons]
      exact Nat.succ_le_succ (ih (i + 1))

theorem analysisDone_of_abort_none (o : Oracle) (specs : List AnalysisSpec) :
    ∀ i, analysisAbort o i specs = none → analysisDone o i specs = specs.length := by
  induction specs with
  | nil => intro i _; rfl
  | cons spec rest ih =>
    intro i h
    cases hout : o.analyzeOutcome i with
    | error e =>
      exact absurd (by simpa only [analysisAbort, hout] using h) (Option.some_ne_none e)
    | ok res =>
      have h' : analysisAbort o (i + 1) rest = none := by
        simpa only [analysisAbort, hout] using h
      simp only [analysisDone, hout, List.length_cons]
      rw [ih (i + 1) h']

/-- The analysis-loop frames, filtered the same way (also ignoring `error`
frames), carry the progress values of the first `analysisDone` iterations. -/
theorem analysisFrames_filterMap {α : Type} (o : Oracle) (len : Nat)
    (g : Frame → Option α) (h : Int → α)
    (hss : ∀ st t d, g (.step_start st t d) = none)
    (hsc : ∀ st t d st2 dat, g (.step_complete st t d st2 dat) = none)
    (hp : ∀ v, g (.progress v) = some (h v))
    (herr : ∀ m, g (.error m) = none)
    (specs : List AnalysisSpec) (i : Nat) :
    (analysisFrames o len i specs).filterMap g
      = (List.range (analysisDone o i specs)).map
          (fun j => h (analysisProgress (i + j + 1) len)) := by
  induction specs generalizing i with
  | nil => simp [analysisFrames, analysisDone]
  | cons spec rest ih =>
    cases hout : o.analyzeOutcome i with
    | error e =>
      rw [analysisFrames_cons_err o len i spec rest e hout]
      simp [List.filterMap_cons, analysisStartFrame, hss, herr, analysisDone, hout]
    | ok res =>
      rw [analysisFrames_cons_ok o len i spec rest res hout]
      simp only [List.filterMap_cons, analysisStartFrame, analysisCompleteFrame,
        hss, hsc, hp]
      rw [ih (i + 1)]
      simp only [analysisDone, hout]
      rw [List.range_succ_eq_map, List.map_cons, List.map_map]
      simp only [Nat.add_zero]
      refine congrArg (List.cons _) (List.map_congr_left fun j _ => ?_)
      simp only [Function.comp_apply]
      have e : i + 1 + j + 1 = i + (j + 1) + 1 := by omega
      rw [e]

theorem searchFrames_mem_complete (o : Oracle) (depth : String) (total : Nat)
    (specs : List SearchSpec) (i j : Nat) (hj : j < specs.length) :
    searchCompleteFrame o depth (i + j) (specs.get ⟨j, hj⟩) ∈
      searchFrames o depth total i specs := by
  induction specs generalizing i j with
  | nil => simp at hj
  | cons spec rest ih =>
    rw [searchFrames_cons]
    cases j with
    | zero => exact List.mem_cons_of_mem _ (List.mem_cons_self _ _)
    | succ j' =>
      have hj' : j' < rest.length := by simpa using Nat.lt_of_succ_lt_succ hj
      have e : i + (j' + 1) = (i + 1) + j' := by omega
      have hmem := ih (i + 1) j' hj'
      refine List.mem_cons_of_mem _ (List.mem_cons_of_mem _ (List.mem_cons_of_mem _ ?_))
      simpa [e] using hmem

theorem analysisFrames_mem_complete (o : Oracle) (len : Nat)
    (specs : List AnalysisSpec) (i j : Nat) (hj : j < specs.length)
    (hok : ∀ m, m < specs.length → ∃ r, o.analyzeOutcome (i + m) = .ok r) :
    ∃ res, o.analyzeOutcome (i + j) = .ok res ∧
      analysisCompleteFrame (i + j) (specs.get ⟨j, hj⟩) res ∈ analysisFrames o len i specs := by
  induction specs generalizing i j with
  | nil => simp at hj
  | cons spec rest ih =>
    obtain ⟨r0, hr0⟩ := hok 0 (by simp)
    simp only [Nat.add_zero] at hr0
    rw [analysisFrames_cons_ok o len i spec rest r0 hr0]
    cases j with
    | zero =>
      refine ⟨r0, by simpa using hr0, ?_⟩
      exact List.mem_cons_of_mem _ (List.mem_cons_self _ _)
    | succ j' =>
      have hj' : j' < rest.length := by simpa using Nat.lt_of_succ_lt_succ hj
      have hok' : ∀ m, m < rest.length → ∃ r, o.analyzeOutcome (i + 1 + m) = .ok r := by
        intro m hm
        have := hok (m + 1) (by simpa using Nat.succ_lt_succ hm)
        have e : i + (m + 1) = i + 1 + m := by omega
        rwa [e] at this
      obtain ⟨res, hres, hmem⟩ := ih (i + 1) j' hj' hok'
      have e : i + (j' + 1) = (i + 1) + j' := by omega
      refine ⟨res, by rwa [e], ?_⟩
      refine List.mem_cons_of_mem _ (List.mem_cons_of_mem _ (List.mem_cons_of_mem _ ?_))
      simpa [e] using hmem

theorem analysisAbort_none_of_ok (o : Oracle)
    (specs : List AnalysisSpec) (i : Nat)
    (hok : ∀ m, m < specs.length → ∃ r, o.analyzeOutcome (i + m) = .ok r) :
    analysisAbort o i specs = none := by
  induction specs generalizing i with
  | nil => rfl
  | cons spec rest ih =>
    obtain ⟨r0, hr0⟩ := hok 0 (by simp)
    simp only [Nat.add_zero] at hr0
    have hok' : ∀ m, m < rest.length → ∃ r, o.analyzeOutcome (i + 1 + m) = .ok r := by
      intro m hm
      have := hok (m + 1) (by simpa using Nat.succ_lt_succ hm)
      have e : i + (m + 1) = i + 1 + m := by omega
      rwa [e] at this
    simp [analysisAbort, hr0, ih (i + 1) hok']

theorem searchFrames_no_chunk (o : Oracle) (depth : String) (total : Nat)
    (specs : List SearchSpec) (i : Nat) :
    ∀ f ∈ searchFrames o depth total i specs, isReportChunk f = false := by
  induction specs generalizing i with
  | nil => simp [searchFrames]
  | cons spec rest ih =>
    intro f hf
    rw [searchFrames_cons] at hf
    simp only [List.mem_cons] at hf
    rcases hf with h | h | h | h
    · subst h; rfl
    · subst h; rfl
    · subst h; rfl
    · exact ih (i + 1) f h

theorem analysisFrames_no_chunk (o : Oracle) (len : Nat)
    (specs : List AnalysisSpec) (i : Nat) :
    ∀ f ∈ analysisFrames o len i specs, isReportChunk f = false := by
  induction specs generalizing i with
  | nil => simp [analysisFrames]
  | cons spec rest ih =>
    intro f hf
    cases hout : o.analyzeOutcome i with
    | error e =>
      rw [analysisFrames_cons_err o len i spec rest e hout] at hf
      simp only [List.mem_cons, List.not_mem_nil, or_false] at hf
      rcases hf with h | h <;> (subst h; rfl)
    | ok res =>
      rw [analysisFrames_cons_ok o len i spec rest res hout] at hf
      simp only [List.mem_cons] at hf
      rcases hf with h | h | h | h
      · subst h; rfl
      · subst h; rfl
      · subst h; rfl
      · exact ih (i + 1) f h

theorem runHead_no_chunk (plan : ResearchPlan) :
    ∀ f ∈ runHead plan, isReportChunk f = false := by
  intro f hf
  simp only [runHead, planningStart, List.mem_cons, List.not_mem_nil, or_false] at hf
  rcases hf with h | h | h <;> (subst h; rfl)

theorem searchPhase_row_isSome (o : Oracle) (depth : String) (total : Nat)
    (specs : List SearchSpec) (i : Nat) (snap : PlanLinksData)
    (acc : List SearchOutcome) (row : Option MessageRow) (h : row.isSome) :
    ((searchPhase o depth total i specs snap acc row).row).isSome := by
  induction specs generalizing i snap acc row with
  | nil => exact h
  | cons spec rest ih =>
    simp only [searchPhase]
    exact ih (i + 1) _ _ _ (by simpa using h)

theorem analysisPhase_row_isSome (o : Oracle) (len : Nat)
    (specs : List AnalysisSpec) (i : Nat) (snap : PlanLinksData)
    (acc : List AnalysisEntry) (row : Option MessageRow) (h : row.isSome) :
    ((analysisPhase o len i specs snap acc row).row).isSome := by
  induction specs generalizing i snap acc row with
  | nil => exact h
  | cons spec rest ih =>
    simp only [analysisPhase]
    cases o.analyzeOutcome i with
    | error e => exact h
    | ok res =>
      simp only []
      exact ih (i + 1) _ _ _ (by simpa using h)

theorem appendSearch_totalLinks (snap : PlanLinksData) (stepNumber : Nat)
    (spec : SearchSpec) (out : SearchOutcome) (host : String → String)
    (h : totalLinksOk snap) :
    totalLinksOk (appendSearch snap stepNumber spec out host) := by
  simp only [totalLinksOk, appendSearch, List.map_append, List.sum_append] at h ⊢
  simp [h, List.length_map]

theorem searchPhase_totalLinks (o : Oracle) (depth : String) (total : Nat)
    (specs : List SearchSpec) (i : Nat) (snap : PlanLinksData)
    (acc : List SearchOutcome) (row : Option MessageRow) (h : totalLinksOk snap) :
    totalLinksOk (searchPhase o depth total i specs snap acc row).snap := by
  induction specs generalizing i snap acc row with
  | nil => exact h
  | cons spec rest ih =>
    simp only [searchPhase]
    exact ih (i + 1) _ _ _ (appendSearch_totalLinks _ _ _ _ _ h)

theorem analysisPhase_totalLinks (o : Oracle) (len : Nat)
    (specs : List AnalysisSpec) (i : Nat) (snap : PlanLinksData)
    (acc : List AnalysisEntry) (row : Option MessageRow) (h : totalLinksOk snap) :
    totalLinksOk (analysisPhase o len i specs snap acc row).snap := by
  induction specs generalizing i snap acc row with
  | nil => exact h
  | cons spec rest ih =>
    simp only [analysisPhase]
    cases o.analyzeOutcome i with
    | error e => exact h
    | ok res =>
      simp only []
      refine ih (i + 1) _ _ _ ?_
      simpa [totalLinksOk] using h

theorem jsOrRat_ne_zero (x d : Rat) (hd : d ≠ 0) : jsOrRat x d ≠ 0 := by
  unfold jsOrRat
  split <;> assumption

theorem jsOrRat_eq_self (x d : Rat) (hx : x ≠ 0) : jsOrRat x d = x := by
  simp [jsOrRat, hx]

theorem foldl_preserve {α β : Type} (P : α → Prop) (f : α → β → α) (l : List β)
    (hf : ∀ acc b, P acc → P (f acc b)) : ∀ acc, P acc → P (l.foldl f acc) := by
  induction l with
  | nil => exact fun acc h => h
  | cons b t ih => exact fun acc h => ih _ (hf acc b h)

theorem pushSearchSource_rel (acc : List Source) (r : NormalizedResult)
    (h : ∀ s ∈ acc, s.relevance ≠ 0) :
    ∀ s ∈ pushSearchSource acc r, s.relevance ≠ 0 := by
  intro s hs
  unfold pushSearchSource at hs
  split at hs
  · exact h s hs
  · split at hs
    · exact h s hs
    · rcases List.mem_append.mp hs with hm | hm
      · exact h s hm
      · simp only [List.mem_singleton] at hm
        subst hm
        show mkRat 8 10 ≠ 0
        decide

theorem pushKeySource_rel (acc : List Source) (k : KeySource)
    (h : ∀ s ∈ acc, s.relevance ≠ 0) :
    ∀ s ∈ pushKeySource acc k, s.relevance ≠ 0 := by
  intro s hs
  unfold pushKeySource at hs
  split at hs
  · exact h s hs
  · split at hs
    · exact h s hs
    · rcases List.mem_append.mp hs with hm | hm
      · exact h s hm
      · simp only [List.mem_singleton] at hm
        subst hm
        show jsOrRat k.relevance (mkRat 7 10) ≠ 0
        exact jsOrRat_ne_zero _ _ (by decide)

theorem collectAllSources_rel (souts : List SearchOutcome) (entries : List AnalysisEntry) :
    ∀ s ∈ collectAllSources souts entries, s.relevance ≠ 0 := by
  unfold collectAllSources
  refine foldl_preserve (fun (acc : List Source) => ∀ s ∈ acc, s.relevance ≠ 0) _ entries
    (fun acc e ha =>
      foldl_preserve _ _ _ (fun a k hk => pushKeySource_rel a k hk) _ ha) _ ?_
  refine foldl_preserve (fun (acc : List Source) => ∀ s ∈ acc, s.relevance ≠ 0) _ souts
    (fun acc out ha =>
      foldl_preserve _ _ _ (fun a r hr => pushSearchSource_rel a r hr) _ ha) _ ?_
  intro s hs
  simp at hs

theorem enumFrom_map_snd {α : Type} : ∀ (n : Nat) (l : List α),
    (List.enumFrom n l).map Prod.snd = l
  | _, [] => rfl
  | n, a :: t => by
    simp only [List.enumFrom, List.map_cons]
    rw [enumFrom_map_snd (n + 1) t]

theorem snd_mem_of_mem_enumTuple {α : Type} {p : Nat × α} {l : List α}
    (hp : p ∈ l.enum) : p.2 ∈ l := by
  have := List.mem_enum_iff_getElem?.mp hp
  exact List.getElem?_mem this

/-- Reading a persisted citation entry back through the recovery mapping
reproduces the original source, given its relevance is nonzero (which holds for
every collected source). -/
theorem citationBack_mk (host : String → String) (i : Nat) (s : Source)
    (h : s.relevance ≠ 0) : citationToSource (mkCitation host i s) = s := by
  simp only [citationToSource, mkCitation]
  rw [jsOrRat_eq_self _ _ (jsOrRat_ne_zero _ _ (by decide)), jsOrRat_eq_self _ _ h]

theorem citation_roundtrip (host : String → String) (srcs : List Source)
    (h : ∀ s ∈ srcs, s.relevance ≠ 0) :
    ((srcs.enum.map fun p => mkCitation host p.1 p.2).map citationToSource) = srcs := by
  rw [List.map_map]
  have hpt : ∀ p ∈ srcs.enum,
      (citationToSource ∘ fun p => mkCitation host p.1 p.2) p = Prod.snd p := by
    intro p hp
    have hrel : p.2.relevance ≠ 0 := h _ (snd_mem_of_mem_enumTuple hp)
    simpa [Function.comp] using citationBack_mk host p.1 p.2 hrel
  rw [List.map_congr_left hpt]
  exact enumFrom_map_snd 0 srcs

theorem runSearchOut_frames (o : Oracle) (depth : String) (plan : ResearchPlan) :
    (runSearchOut o depth plan).frames =
      searchFrames o depth (5 + plan.analyses.length) 0 plan.searches :=
  searchPhase_frames _ _ _ _ _ _ _ _

theorem runAnalysisOut_frames (o : Oracle) (depth : String) (plan : ResearchPlan) :
    (runAnalysisOut o depth plan).frames =
      analysisFrames o plan.analyses.length 0 plan.analyses :=
  analysisPhase_frames _ _ _ _ _ _ _

theorem runAnalysisOut_abortMsg (o : Oracle) (depth : String) (plan : ResearchPlan) :
    (runAnalysisOut o depth plan).abortMsg = analysisAbort o 0 plan.analyses :=
  analysisPhase_abortMsg _ _ _ _ _ _ _

/-- A run whose planning call throws emits exactly the planning `step_start` and
one `error` frame, and persists nothing. -/
theorem runResearch_planFail (o : Oracle) (depth : String) (e : String)
    (hplan : o.planOutcome = .error e) :
    runResearch o depth = ([planningStart, Frame.error e], none) := by
  simp [runResearch, hplan]

/-- Frame decomposition of a run whose analysis loop aborts. -/
theorem runResearch_abort (o : Oracle) (depth : String) (plan : ResearchPlan) (e : String)
    (hplan : o.planOutcome = .ok plan)
    (habort : analysisAbort o 0 plan.analyses = some e) :
    runResearch o depth =
      (runHead plan ++ searchFrames o depth (5 + plan.analyses.length) 0 plan.searches ++
         analysisFrames o plan.analyses.length 0 plan.analyses,
       (runAnalysisOut o depth plan).row) := by
  simp [runResearch, hplan, runAnalysisOut_abortMsg, habort, runSearchOut_frames,
    runAnalysisOut_frames]

/-- Frame decomposition of a run whose `streamText` call throws. -/
theorem runResearch_reportCallFail (o : Oracle) (depth : String) (plan : ResearchPlan)
    (e : String)
    (hplan : o.planOutcome = .ok plan)
    (habort : analysisAbort o 0 plan.analyses = none)
    (hrc : o.reportCall = .error e) :
    runResearch o depth =
      (runHead plan ++ searchFrames o depth (5 + plan.analyses.length) 0 plan.searches ++
         analysisFrames o plan.analyses.length 0 plan.analyses ++
         [reportStart, Frame.error e],
       (runAnalysisOut o depth plan).row) := by
  simp [runResearch, hplan, runAnalysisOut_abortMsg, habort, runSearchOut_frames,
    runAnalysisOut_frames, runReportOut, reportPhase, hrc, reportStart]

/-- Frame decomposition of a run whose report fragment loop throws after the
fragments were forwarded. -/
theorem runResearch_streamEndFail (o : Oracle) (depth : String) (plan : ResearchPlan)
    (e : String)
    (hplan : o.planOutcome = .ok plan)
    (habort : analysisAbort o 0 plan.analyses = none)
    (hrc : o.reportCall = .ok ())
    (hse : o.streamEnd = .error e) :
    runResearch o depth =
      (runHead plan ++ searchFrames o depth (5 + plan.analyses.length) 0 plan.searches ++
         analysisFrames o plan.analyses.length 0 plan.analyses ++
         ((reportStart :: reportDone :: Frame.progress 95 ::
            o.reportChunks.map Frame.report_chunk) ++ [Frame.error e]),
       (runAnalysisOut o depth plan).row) := by
  simp [runResearch, hplan, runAnalysisOut_abortMsg, habort, runSearchOut_frames,
    runAnalysisOut_frames, runReportOut, reportPhase, hrc, hse, reportStart, reportDone]

/-- Frame and row decomposition of a fully successful run. -/
theorem runResearch_success (o : Oracle) (depth : String) (plan : ResearchPlan)
    (hplan : o.planOutcome = .ok plan)
    (habort : analysisAbort o 0 plan.analyses = none)
    (hrc : o.reportCall = .ok ())
    (hse : o.streamEnd = .ok ()) :
    runResearch o depth =
      (runHead plan ++ searchFrames o depth (5 + plan.analyses.length) 0 plan.searches ++
         analysisFrames o plan.analyses.length 0 plan.analyses ++
         ((reportStart :: reportDone :: Frame.progress 95 ::
            o.reportChunks.map Frame.report_chunk) ++
          [Frame.report_complete (String.join o.reportChunks) (runAllSources o depth plan),
           Frame.progress 100, Frame.status_change .complete]),
       (runAnalysisOut o depth plan).row.map fun r =>
         { r with content := String.join o.reportChunks,
                  research_status := some .complete, research_progress := some 100,
                  research_plan_links := some
                    { (runAnalysisOut o depth plan).snap with completion_rate := 100 },
                  citation_sources := some ((runAllSources o depth plan).enum.map fun p =>
                    mkCitation o.host p.1 p.2) }) := by
  simp [runResearch, hplan, runAnalysisOut_abortMsg, habort, runSearchOut_frames,
    runAnalysisOut_frames, runReportOut, reportPhase, hrc, hse, reportStart, reportDone,
    runAllSources]

theorem searchFrames_filterMap_none {α : Type} (o : Oracle) (depth : String) (total : Nat)
    (g : Frame → Option α)
    (hss : ∀ st t d, g (.step_start st t d) = none)
    (hsc : ∀ st t d st2 dat, g (.step_complete st t d st2 dat) = none)
    (hp : ∀ v, g (.progress v) = none)
    (specs : List SearchSpec) (i : Nat) :
    (searchFrames o depth total i specs).filterMap g = [] := by
  induction specs generalizing i with
  | nil => simp [searchFrames]
  | cons spec rest ih =>
    rw [searchFrames_cons]
    simp only [List.filterMap_cons, searchStartFrame, searchCompleteFrame, hss, hsc, hp]
    exact ih (i + 1)

theorem analysisFrames_filterMap_none {α : Type} (o : Oracle) (len : Nat)
    (g : Frame → Option α)
    (hss : ∀ st t d, g (.step_start st t d) = none)
    (hsc : ∀ st t d st2 dat, g (.step_complete st t d st2 dat) = none)
    (hp : ∀ v, g (.progress v) = none)
    (herr : ∀ m, g (.error m) = none)
    (specs : List AnalysisSpec) (i : Nat) :
    (analysisFrames o len i specs).filterMap g = [] := by
  induction specs generalizing i with
  | nil => simp [analysisFrames]
  | cons spec rest ih =>
    cases hout : o.analyzeOutcome i with
    | error e =>
      rw [analysisFrames_cons_err o len i spec rest e hout]
      simp [List.filterMap_cons, analysisStartFrame, hss, herr]
    | ok res =>
      rw [analysisFrames_cons_ok o len i spec rest res hout]
      simp only [List.filterMap_cons, analysisStartFrame, analysisCompleteFrame,
        hss, hsc, hp]
      exact ih (i + 1)

/-- C9: for every search spec with priority 1..5, the result count requested from
the Tavily client is `max(4, min(8 - priority, 12))` — inversely related to the
priority (non-increasing in it) and bounded between 4 and 12
(src/unnamed/part_004 line 527; same expression in src/unnamed/part_003 line 460).
`executeWebSearch` passes exactly `searchOpts depth priority` to the client. -/
theorem c9_requested_result_count (depth : String) (p : Int) (h1 : 1 ≤ p) (h5 : p ≤ 5) :
    (searchOpts depth p).maxResults = max 4 (min (8 - p) 12) ∧
    4 ≤ (searchOpts depth p).maxResults ∧
    (searchOpts depth p).maxResults ≤ 12 ∧
    (∀ q : Int, 1 ≤ q → q ≤ 5 → p ≤ q →
      (searchOpts depth q).maxResults ≤ (searchOpts depth p).maxResults) := by
  refine ⟨rfl, ?_, ?_, ?_⟩
  · simp only [searchOpts]
    rcases le_total (8 - p) 12 with h | h
    · rw [min_eq_left h]; exact le_max_left _ _
    · rw [min_eq_right h]; omega
  · simp only [searchOpts]
    rcases le_total (8 - p) 12 with h | h
    · rw [min_eq_left h]
      rcases le_total 4 (8 - p) with h2 | h2
      · rw [max_eq_right h2]; omega
      · rw [max_eq_left h2]; omega
    · omega
  · intro q hq1 hq5 hpq
    simp only [searchOpts]
    have e1 : min (8 - p) 12 = 8 - p := min_eq_left (by omega)
    have e2 : min (8 - q) 12 = 8 - q := min_eq_left (by omega)
    rw [e1, e2]
    rcases le_total 4 (8 - q) with h2 | h2
    · rw [max_eq_right h2, max_eq_right (by omega)]; omega
    · rw [max_eq_left h2]
      exact le_max_left _ _

theorem c9_requested_result_count_witness :
    (1 : Int) ≤ 2 ∧ (2 : Int) ≤ 5 ∧
    ((searchOpts "basic" 2).maxResults = max 4 (min (8 - 2) 12) ∧
     4 ≤ (searchOpts "basic" 2).maxResults ∧
     (searchOpts "basic" 2).maxResults ≤ 12 ∧
     (∀ q : Int, 1 ≤ q → q ≤ 5 → 2 ≤ q →
       (searchOpts "basic" q).maxResults ≤ (searchOpts "basic" 2).maxResults)) :=
  ⟨by decide, by decide, c9_requested_result_count "basic" 2 (by decide) (by decide)⟩

/-- C4: when the generative model throws during planning, the emitted frame
sequence is exactly the planning `step_start` followed by one `error` frame —
exactly one error frame, no `step_start` for any step other than step 1, nothing
downstream attempted, and no row persisted. The run function returning this
finite list models the `finally` closing the stream. -/
theorem c4_planning_failure (o : Oracle) (depth : String) (e : String)
    (hplan : o.planOutcome = .error e) :
    runFrames o depth = [planningStart, Frame.error e] ∧
    (runFrames o depth).countP isErrorFrame = 1 ∧
    (∀ st t d, Frame.step_start st t d ∈ runFrames o depth → st = 1) ∧
    runRow o depth = none := by
  have h := runResearch_planFail o depth e hplan
  have hframes : runFrames o depth = [planningStart, Frame.error e] := by
    simp [runFrames, h]
  refine ⟨hframes, ?_, ?_, ?_⟩
  · rw [hframes]
    simp [List.countP_cons, isErrorFrame, planningStart]
  · intro st t d hmem
    rw [hframes] at hmem
    simp only [planningStart, List.mem_cons, List.not_mem_nil, or_false] at hmem
    rcases hmem with hh | hh
    · exact (Frame.step_start.injEq _ _ _ _ _ _).mp hh |>.1
    · exact absurd hh (by simp)
  · simp [runRow, h]

theorem c4_planning_failure_witness :
    oraclePlanFail.planOutcome = .error "model down" ∧
    (runFrames oraclePlanFail "basic" = [planningStart, Frame.error "model down"] ∧
     (runFrames oraclePlanFail "basic").countP isErrorFrame = 1 ∧
     (∀ st t d, Frame.step_start st t d ∈ runFrames oraclePlanFail "basic" → st = 1) ∧
     runRow oraclePlanFail "basic" = none) :=
  ⟨rfl, c4_planning_failure oraclePlanFail "basic" "model down" rfl⟩

/-- C8 counterexample: the row persisted right after planning carries a
`research_plan_links` snapshot with no search records and no analysis records at
all, yet `recoverFromDatabase` returns `true` and installs a reconstructed view
state (with the synthesized planning step), contradicting the claim that it
reports "no recoverable state" for such a snapshot. -/
theorem c8_counterexample :
    (insertedRow plan5).research_plan_links = some initPlanLinks ∧
    initPlanLinks.searches = [] ∧ initPlanLinks.analyses = [] ∧
    (recoverFromDatabase (some (insertedRow plan5)) initialDeepSearchState).1 = true ∧
    (recoverFromDatabase (some (insertedRow plan5)) initialDeepSearchState).2 ≠
      initialDeepSearchState := by
  refine ⟨rfl, rfl, rfl, rfl, ?_⟩
  decide

/-- C8 amended: recovery reports "no recoverable state" (returns `false` and
leaves the state untouched) exactly when the message data is absent or carries
no `research_plan_links` snapshot at all; a present snapshot — even one with no
search and no analysis records — always recovers (returns `true`). -/
theorem c8_amended (md : Option MessageRow) (prev : DeepSearchState) :
    (md = none → recoverFromDatabase md prev = (false, prev)) ∧
    (∀ row, md = some row → row.research_plan_links = none →
      recoverFromDatabase md prev = (false, prev)) ∧
    (∀ row links, md = some row → row.research_plan_links = some links →
      (recoverFromDatabase md prev).1 = true) := by
  refine ⟨?_, ?_, ?_⟩
  · intro h; subst h; rfl
  · intro row hmd hlinks
    subst hmd
    simp [recoverFromDatabase, hlinks]
  · intro row links hmd hlinks
    subst hmd
    simp [recoverFromDatabase, hlinks]

theorem c8_amended_witness :
    ((some (insertedRow plan5) : Option MessageRow) = none →
      recoverFromDatabase (some (insertedRow plan5)) initialDeepSearchState =
        (false, initialDeepSearchState)) ∧
    (∀ row, (some (insertedRow plan5) : Option MessageRow) = some row →
      row.research_plan_links = none →
      recoverFromDatabase (some (insertedRow plan5)) initialDeepSearchState =
        (false, initialDeepSearchState)) ∧
    (∀ row links, (some (insertedRow plan5) : Option MessageRow) = some row →
      row.research_plan_links = some links →
      (recoverFromDatabase (some (insertedRow plan5)) initialDeepSearchState).1 = true) :=
  c8_amended (some (insertedRow plan5)) initialDeepSearchState

/-- C6: the snapshot invariant `total_links = sum of links.length over all search
records` holds after every append of a search record during any run: it holds for
the initial snapshot, after the first `j` search appends for every `j`, after the
whole search loop, and still after the analysis loop (which never touches
`total_links` or `searches`); moreover one `appendSearch` always preserves it. -/
theorem c6_total_links_invariant (o : Oracle) (depth : String) (plan : ResearchPlan)
    (j : Nat) :
    totalLinksOk initPlanLinks ∧
    totalLinksOk (searchPhase o depth (5 + plan.analyses.length) 0 (plan.searches.take j)
      initPlanLinks [] (initialRow o plan)).snap ∧
    totalLinksOk (runSearchOut o depth plan).snap ∧
    totalLinksOk (runAnalysisOut o depth plan).snap ∧
    (∀ snap stepNumber spec out host, totalLinksOk snap →
      totalLinksOk (appendSearch snap stepNumber spec out host)) := by
  have h0 : totalLinksOk initPlanLinks := rfl
  refine ⟨h0, searchPhase_totalLinks _ _ _ _ _ _ _ _ h0, ?_, ?_, ?_⟩
  · exact searchPhase_totalLinks _ _ _ _ _ _ _ _ h0
  · exact analysisPhase_totalLinks _ _ _ _ _ _ _
      (searchPhase_totalLinks _ _ _ _ _ _ _ _ h0)
  · intro snap stepNumber spec out host h
    exact appendSearch_totalLinks _ _ _ _ _ h

theorem c6_total_links_invariant_witness :
    totalLinksOk initPlanLinks ∧
    totalLinksOk (searchPhase oracleOk "basic" (5 + plan5.analyses.length) 0
      (plan5.searches.take 3) initPlanLinks [] (initialRow oracleOk plan5)).snap ∧
    totalLinksOk (runSearchOut oracleOk "basic" plan5).snap ∧
    totalLinksOk (runAnalysisOut oracleOk "basic" plan5).snap ∧
    (∀ snap stepNumber spec out host, totalLinksOk snap →
      totalLinksOk (appendSearch snap stepNumber spec out host)) :=
  c6_total_links_invariant oracleOk "basic" plan5 3

/-- C1 counterexample: in a run where the Tavily client throws for search number
3 only (loop index 2, pipeline step 4), the step's StepUpdate in the folded
client state has status `completed` with result count 0 — not status `error` as
the claim states: `executeWebSearch` swallows the throw and the route always
records search steps as `completed`. -/
theorem c1_counterexample :
    oracleSearch3Fail.tavilySearch 2 "q3" (searchOpts "basic" 3) = .error "tavily down" ∧
    (liveState oracleSearch3Fail "basic").updates.filter (fun u => u.step == 4) =
      [{ step := 4, title := "Web Search 3", description := "Found 0 sources",
         status := .completed, data := some (.search "q3" 0 []) }] ∧
    (¬ ∃ u ∈ (liveState oracleSearch3Fail "basic").updates,
      u.step = 4 ∧ u.status = .error) := by
  refine ⟨rfl, by decide, by decide⟩

/-- C1 amended: if the Tavily client throws for the search with loop index `k`
(pipeline step `k + 2`) while planning, all analyses and the report succeed, then
that step's `step_complete` frame is emitted with status `completed` (not
`error`) and result count 0 with an empty source list, every other search step
still emits its `step_complete` frame (`searchCompleteFrame`, whose status is
always `completed`), every analysis step still executes and emits its completed
`step_complete` frame (`analysisCompleteFrame`), and the run still reaches phase
`complete`. -/
theorem c1_amended (o : Oracle) (depth : String) (plan : ResearchPlan) (k : Nat)
    (e : String)
    (hplan : o.planOutcome = .ok plan)
    (hk : k < plan.searches.length)
    (htav : ∀ q opts, o.tavilySearch k q opts = .error e)
    (hok : ∀ m, m < plan.analyses.length → ∃ r, o.analyzeOutcome m = .ok r)
    (hrc : o.reportCall = .ok ())
    (hse : o.streamEnd = .ok ()) :
    (Frame.step_complete (k + 2) ("Web Search " ++ toString (k + 1))
      ("Found " ++ toString 0 ++ " sources") .completed
      (some (.search (plan.searches.get ⟨k, hk⟩).query 0 [])) ∈ runFrames o depth) ∧
    (∀ j (hj : j < plan.searches.length),
      searchCompleteFrame o depth j (plan.searches.get ⟨j, hj⟩) ∈ runFrames o depth) ∧
    (∀ j (hj : j < plan.analyses.length), ∃ res, o.analyzeOutcome j = .ok res ∧
      analysisCompleteFrame j (plan.analyses.get ⟨j, hj⟩) res ∈ runFrames o depth) ∧
    Frame.status_change .complete ∈ runFrames o depth := by
  have habort : analysisAbort o 0 plan.analyses = none := by
    apply analysisAbort_none_of_ok
    intro m hm
    simpa using hok m hm
  have hdec := runResearch_success o depth plan hplan habort hrc hse
  have hframes : runFrames o depth =
      runHead plan ++ searchFrames o depth (5 + plan.analyses.length) 0 plan.searches ++
      analysisFrames o plan.analyses.length 0 plan.analyses ++
      ((reportStart :: reportDone :: Frame.progress 95 ::
         o.reportChunks.map Frame.report_chunk) ++
       [Frame.report_complete (String.join o.reportChunks) (runAllSources o depth plan),
        Frame.progress 100, Frame.status_change .complete]) := by
    simp [runFrames, hdec]
  have hsearch : ∀ j (hj : j < plan.searches.length),
      searchCompleteFrame o depth j (plan.searches.get ⟨j, hj⟩) ∈ runFrames o depth := by
    intro j hj
    have hmem := searchFrames_mem_complete o depth (5 + plan.analyses.length)
      plan.searches 0 j hj
    simp only [Nat.zero_add] at hmem
    rw [hframes]
    simp only [List.mem_append]
    exact Or.inl (Or.inl (Or.inr hmem))
  refine ⟨?_, hsearch, ?_, ?_⟩
  · have hmem := hsearch k hk
    have hfr : searchCompleteFrame o depth k (plan.searches.get ⟨k, hk⟩) =
        Frame.step_complete (k + 2) ("Web Search " ++ toString (k + 1))
          ("Found " ++ toString 0 ++ " sources") .completed
          (some (.search (plan.searches.get ⟨k, hk⟩).query 0 [])) := by
      simp [searchCompleteFrame, executeWebSearch, htav]
    rwa [hfr] at hmem
  · intro j hj
    obtain ⟨res, hres, hmem⟩ := analysisFrames_mem_complete o plan.analyses.length
      plan.analyses 0 j hj (by intro m hm; simpa using hok m hm)
    simp only [Nat.zero_add] at hres hmem
    refine ⟨res, hres, ?_⟩
    rw [hframes]
    simp only [List.mem_append]
    exact Or.inl (Or.inr hmem)
  · rw [hframes]
    simp

theorem c1_amended_witness :
    oracleSearch3Fail.planOutcome = .ok plan5 ∧
    2 < plan5.searches.length ∧
    (∀ q opts, oracleSearch3Fail.tavilySearch 2 q opts = .error "tavily down") ∧
    (∀ m, m < plan5.analyses.length → ∃ r, oracleSearch3Fail.analyzeOutcome m = .ok r) ∧
    oracleSearch3Fail.reportCall = .ok () ∧
    oracleSearch3Fail.streamEnd = .ok () ∧
    Frame.status_change .complete ∈ runFrames oracleSearch3Fail "basic" := by
  have hk : 2 < plan5.searches.length := by decide
  have htav : ∀ q opts, oracleSearch3Fail.tavilySearch 2 q opts = .error "tavily down" :=
    fun q opts => rfl
  have hok : ∀ m, m < plan5.analyses.length →
      ∃ r, oracleSearch3Fail.analyzeOutcome m = .ok r :=
    fun m _ => ⟨anaResOne, rfl⟩
  exact ⟨rfl, hk, htav, hok, rfl, rfl,
    (c1_amended oracleSearch3Fail "basic" plan5 2 "tavily down" rfl hk htav hok
      rfl rfl).2.2.2⟩

/-- C7: in a successful run with 5 searches and 5 analyses, the ordered sequence
of emitted `progress` values is exactly `searchProgress s 10` (the source's
`Math.round(stepNumber / totalSteps * 70)` with `totalSteps = 10`) for search
steps `s = 2..6`, then `analysisProgress j 5` (the source's
`Math.round(70 + (j / 5) * 25)`) for analyses `j = 1..5`, then the fixed 95
after the report `step_complete` and the final 100; numerically
`[14, 21, 28, 35, 42, 75, 80, 85, 90, 95, 95, 100]`. -/
theorem c7_progress_formulas (o : Oracle) (depth : String) (plan : ResearchPlan)
    (hplan : o.planOutcome = .ok plan)
    (hs : plan.searches.length = 5)
    (ha : plan.analyses.length = 5)
    (hok : ∀ m, m < plan.analyses.length → ∃ r, o.analyzeOutcome m = .ok r)
    (hrc : o.reportCall = .ok ())
    (hse : o.streamEnd = .ok ()) :
    progressPayloads (runFrames o depth) =
      ((List.range 5).map fun i => searchProgress (i + 2) 10) ++
      ((List.range 5).map fun j => analysisProgress (j + 1) 5) ++ [95, 100] ∧
    progressPayloads (runFrames o depth) =
      [14, 21, 28, 35, 42, 75, 80, 85, 90, 95, 95, 100] := by
  have habort : analysisAbort o 0 plan.analyses = none := by
    apply analysisAbort_none_of_ok
    intro m hm
    simpa using hok m hm
  have hdec := runResearch_success o depth plan hplan habort hrc hse
  have hframes : runFrames o depth =
      runHead plan ++ searchFrames o depth (5 + plan.analyses.length) 0 plan.searches ++
      analysisFrames o plan.analyses.length 0 plan.analyses ++
      ((reportStart :: reportDone :: Frame.progress 95 ::
         o.reportChunks.map Frame.report_chunk) ++
       [Frame.report_complete (String.join o.reportChunks) (runAllSources o depth plan),
        Frame.progress 100, Frame.status_change .complete]) := by
    simp [runFrames, hdec]
  have hS := searchFrames_filterMap o depth (5 + plan.analyses.length) progressPayload id
    (fun _ _ _ => rfl) (fun _ _ _ _ _ => rfl) (fun _ => rfl) plan.searches 0
  have hA := analysisFrames_filterMap o plan.analyses.length
    progressPayload id (fun _ _ _ => rfl) (fun _ _ _ _ _ => rfl) (fun _ => rfl)
    (fun _ => rfl) plan.analyses 0
  have hk5 : analysisDone o 0 plan.analyses = plan.analyses.length :=
    analysisDone_of_abort_none o plan.analyses 0 habort
  have h1 : (runHead plan).filterMap progressPayload = [] := by
    simp [runHead, planningStart, List.filterMap_cons, progressPayload]
  have h2 : ((reportStart :: reportDone :: Frame.progress 95 ::
      o.reportChunks.map Frame.report_chunk) ++
      [Frame.report_complete (String.join o.reportChunks) (runAllSources o depth plan),
       Frame.progress 100, Frame.status_change .complete]).filterMap progressPayload
      = [95, 100] := by
    simp [reportStart, reportDone, progressPayload, List.filterMap_cons,
      List.filterMap_append, filterMap_report_chunks progressPayload (fun _ => rfl)]
  have hmain : progressPayloads (runFrames o depth) =
      ((List.range 5).map fun i => searchProgress (i + 2) 10) ++
      ((List.range 5).map fun j => analysisProgress (j + 1) 5) ++ [95, 100] := by
    rw [progressPayloads, hframes, List.filterMap_append, List.filterMap_append,
      List.filterMap_append, h1, hS, hA, hk5, h2, hs, ha]
    decide
  refine ⟨hmain, ?_⟩
  rw [hmain]
  decide

theorem c7_progress_formulas_witness :
    oracleOk.planOutcome = .ok plan5 ∧
    plan5.searches.length = 5 ∧ plan5.analyses.length = 5 ∧
    progressPayloads (runFrames oracleOk "basic") =
      [14, 21, 28, 35, 42, 75, 80, 85, 90, 95, 95, 100] :=
  ⟨rfl, rfl, rfl,
    (c7_progress_formulas oracleOk "basic" plan5 rfl rfl rfl
      (fun _m _ => ⟨anaResOne, rfl⟩) rfl rfl).2⟩

theorem chain'_of_leChainInt : ∀ (l : List Int), leChainInt l = true →
    List.Chain' (· ≤ ·) l
  | [], _ => List.chain'_nil
  | [a], _ => List.chain'_singleton a
  | a :: b :: t, h => by
    rw [leChainInt, Bool.and_eq_true, decide_eq_true_eq] at h
    exact List.chain'_cons.mpr ⟨h.1, chain'_of_leChainInt (b :: t) h.2⟩

/-- C5: for every run (whatever the adapter outcomes, with the plan schema-valid
when planning succeeds), the values carried by the ordered `progress` frames are
non-decreasing, and the progress field of the client state folded over every
prefix of the frame sequence is non-decreasing in the prefix length. -/
theorem c5_progress_monotone (o : Oracle) (depth : String)
    (hv : ∀ plan, o.planOutcome = .ok plan →
      plan.searches.length = 5 ∧ plan.analyses.length = 5) :
    List.Chain' (· ≤ ·) (progressPayloads (runFrames o depth)) ∧
    Monotone fun n =>
      (foldFrames initialDeepSearchState ((runFrames o depth).take n)).progress := by
  have hmono : List.Chain' (· ≤ ·) (0 :: (runFrames o depth).filterMap progEvent) →
      Monotone fun n =>
        (foldFrames initialDeepSearchState ((runFrames o depth).take n)).progress :=
    fun h => foldFrames_progress_monotone _ _ h
  cases hplan : o.planOutcome with
  | error e =>
    have hfr : runFrames o depth = [planningStart, Frame.error e] := by
      simp [runFrames, runResearch_planFail o depth e hplan]
    have h1 : progressPayloads (runFrames o depth) = [] := by rw [hfr]; rfl
    have h2 : (runFrames o depth).filterMap progEvent = [] := by rw [hfr]; rfl
    refine ⟨?_, hmono ?_⟩
    · rw [h1]; exact List.chain'_nil
    · rw [h2]; exact List.chain'_singleton 0
  | ok plan =>
    obtain ⟨hs, ha⟩ := hv plan hplan
    have hS_pay := searchFrames_filterMap o depth (5 + plan.analyses.length)
      progressPayload id (fun _ _ _ => rfl) (fun _ _ _ _ _ => rfl) (fun _ => rfl)
      plan.searches 0
    have hS_ev := searchFrames_filterMap o depth (5 + plan.analyses.length)
      progEvent (fun v => min 100 (max 0 v)) (fun _ _ _ => rfl) (fun _ _ _ _ _ => rfl)
      (fun _ => rfl) plan.searches 0
    have hA_pay := analysisFrames_filterMap o plan.analyses.length
      progressPayload id (fun _ _ _ => rfl) (fun _ _ _ _ _ => rfl) (fun _ => rfl)
      (fun _ => rfl) plan.analyses 0
    have hA_ev := analysisFrames_filterMap o plan.analyses.length
      progEvent (fun v => min 100 (max 0 v)) (fun _ _ _ => rfl) (fun _ _ _ _ _ => rfl)
      (fun _ => rfl) (fun _ => rfl) plan.analyses 0
    have hH_pay : (runHead plan).filterMap progressPayload = [] := by
      simp [runHead, planningStart, List.filterMap_cons, progressPayload]
    have hH_ev : (runHead plan).filterMap progEvent = [] := by
      simp [runHead, planningStart, List.filterMap_cons, progEvent]
    have hkle := analysisDone_le o plan.analyses 0
    rw [ha] at hkle
    cases habort : analysisAbort o 0 plan.analyses with
    | some e =>
      have hfr : runFrames o depth =
          runHead plan ++
          searchFrames o depth (5 + plan.analyses.length) 0 plan.searches ++
          analysisFrames o plan.analyses.length 0 plan.analyses := by
        simp [runFrames, runResearch_abort o depth plan e hplan habort]
      have hpp : progressPayloads (runFrames o depth) =
          ((List.range 5).map fun j => id (searchProgress (0 + j + 2) (5 + 5))) ++
          ((List.range (analysisDone o 0 plan.analyses)).map fun j =>
            id (analysisProgress (0 + j + 1) 5)) := by
        rw [progressPayloads, hfr, List.filterMap_append, List.filterMap_append,
          hH_pay, hS_pay, hA_pay, hs, ha]
        simp
      have hpe : (runFrames o depth).filterMap progEvent =
          ((List.range 5).map fun j =>
            min 100 (max 0 (searchProgress (0 + j + 2) (5 + 5)))) ++
          ((List.range (analysisDone o 0 plan.analyses)).map fun j =>
            min 100 (max 0 (analysisProgress (0 + j + 1) 5))) := by
        rw [hfr, List.filterMap_append, List.filterMap_append,
          hH_ev, hS_ev, hA_ev, hs, ha]
        simp
      refine ⟨?_, hmono ?_⟩
      · rw [hpp]
        generalize hgen : analysisDone o 0 plan.analyses = k at hkle ⊢
        interval_cases k <;> exact chain'_of_leChainInt _ (by decide)
      · rw [hpe]
        generalize hgen : analysisDone o 0 plan.analyses = k at hkle ⊢
        interval_cases k <;> exact chain'_of_leChainInt _ (by decide)
    | none =>
      have hk5 : analysisDone o 0 plan.analyses = 5 := by
        rw [analysisDone_of_abort_none o plan.analyses 0 habort, ha]
      cases hrc : o.reportCall with
      | error e =>
        have hfr : runFrames o depth =
            runHead plan ++
            searchFrames o depth (5 + plan.analyses.length) 0 plan.searches ++
            analysisFrames o plan.analyses.length 0 plan.analyses ++
            [reportStart, Frame.error e] := by
          simp [runFrames, runResearch_reportCallFail o depth plan e hplan habort hrc]
        have ht_pay : ([reportStart, Frame.error e] : List Frame).filterMap
            progressPayload = [] := by simp [reportStart, progressPayload]
        have ht_ev : ([reportStart, Frame.error e] : List Frame).filterMap
            progEvent = [] := by simp [reportStart, progEvent]
        have hpp : progressPayloads (runFrames o depth) =
            ((List.range 5).map fun j => id (searchProgress (0 + j + 2) (5 + 5))) ++
            ((List.range 5).map fun j => id (analysisProgress (0 + j + 1) 5)) := by
          rw [progressPayloads, hfr, List.filterMap_append, List.filterMap_append,
            List.filterMap_append, hH_pay, hS_pay, hA_pay, hk5, ht_pay, hs, ha]
          simp
        have hpe : (runFrames o depth).filterMap progEvent =
            ((List.range 5).map fun j =>
              min 100 (max 0 (searchProgress (0 + j + 2) (5 + 5)))) ++
            ((List.range 5).map fun j =>
              min 100 (max 0 (analysisProgress (0 + j + 1) 5))) := by
          rw [hfr, List.filterMap_append, List.filterMap_append,
            List.filterMap_append, hH_ev, hS_ev, hA_ev, hk5, ht_ev, hs, ha]
          simp
        exact ⟨by rw [hpp]; exact chain'_of_leChainInt _ (by decide),
          hmono (by rw [hpe]; exact chain'_of_leChainInt _ (by decide))⟩
      | ok u =>
        cases u
        cases hse : o.streamEnd with
        | error e =>
          have hfr : runFrames o depth =
              runHead plan ++
              searchFrames o depth (5 + plan.analyses.length) 0 plan.searches ++
              analysisFrames o plan.analyses.length 0 plan.analyses ++
              ((reportStart :: reportDone :: Frame.progress 95 ::
                 o.reportChunks.map Frame.report_chunk) ++ [Frame.error e]) := by
            simp [runFrames,
              runResearch_streamEndFail o depth plan e hplan habort hrc hse]
          have ht_pay : ((reportStart :: reportDone :: Frame.progress 95 ::
              o.reportChunks.map Frame.report_chunk) ++ [Frame.error e]).filterMap
              progressPayload = [95] := by
            simp [reportStart, reportDone, progressPayload, List.filterMap_cons,
              List.filterMap_append,
              filterMap_report_chunks progressPayload (fun _ => rfl)]
          have ht_ev : ((reportStart :: reportDone :: Frame.progress 95 ::
              o.reportChunks.map Frame.report_chunk) ++ [Frame.error e]).filterMap
              progEvent = [95] := by
            simp [reportStart, reportDone, progEvent, List.filterMap_cons,
              List.filterMap_append,
              filterMap_report_chunks progEvent (fun _ => rfl)]
          have hpp : progressPayloads (runFrames o depth) =
              ((List.range 5).map fun j => id (searchProgress (0 + j + 2) (5 + 5))) ++
              ((List.range 5).map fun j => id (analysisProgress (0 + j + 1) 5)) ++
              [95] := by
            rw [progressPayloads, hfr, List.filterMap_append, List.filterMap_append,
              List.filterMap_append, hH_pay, hS_pay, hA_pay, hk5, ht_pay, hs, ha]
            simp
          have hpe : (runFrames o depth).filterMap progEvent =
              ((List.range 5).map fun j =>
                min 100 (max 0 (searchProgress (0 + j + 2) (5 + 5)))) ++
              ((List.range 5).map fun j =>
                min 100 (max 0 (analysisProgress (0 + j + 1) 5))) ++ [95] := by
            rw [hfr, List.filterMap_append, List.filterMap_append,
              List.filterMap_append, hH_ev, hS_ev, hA_ev, hk5, ht_ev, hs, ha]
            simp
          exact ⟨by rw [hpp]; exact chain'_of_leChainInt _ (by decide),
          hmono (by rw [hpe]; exact chain'_of_leChainInt _ (by decide))⟩
        | ok u2 =>
          cases u2
          have hfr : runFrames o depth =
              runHead plan ++
              searchFrames o depth (5 + plan.analyses.length) 0 plan.searches ++
              analysisFrames o plan.analyses.length 0 plan.analyses ++
              ((reportStart :: reportDone :: Frame.progress 95 ::
                 o.reportChunks.map Frame.report_chunk) ++
               [Frame.report_complete (String.join o.reportChunks)
                  (runAllSources o depth plan),
                Frame.progress 100, Frame.status_change .complete]) := by
            simp [runFrames, runResearch_success o depth plan hplan habort hrc hse]
          have ht_pay : ((reportStart :: reportDone :: Frame.progress 95 ::
              o.reportChunks.map Frame.report_chunk) ++
              [Frame.report_complete (String.join o.reportChunks)
                 (runAllSources o depth plan),
               Frame.progress 100, Frame.status_change .complete]).filterMap
              progressPayload = [95, 100] := by
            simp [reportStart, reportDone, progressPayload, List.filterMap_cons,
              List.filterMap_append,
              filterMap_report_chunks progressPayload (fun _ => rfl)]
          have ht_ev : ((reportStart :: reportDone :: Frame.progress 95 ::
              o.reportChunks.map Frame.report_chunk) ++
              [Frame.report_complete (String.join o.reportChunks)
                 (runAllSources o depth plan),
               Frame.progress 100, Frame.status_change .complete]).filterMap
              progEvent = [95, 100, 100] := by
            simp [reportStart, reportDone, progEvent, List.filterMap_cons,
              List.filterMap_append,
              filterMap_report_chunks progEvent (fun _ => rfl)]
          have hpp : progressPayloads (runFrames o depth) =
              ((List.range 5).map fun j => id (searchProgress (0 + j + 2) (5 + 5))) ++
              ((List.range 5).map fun j => id (analysisProgress (0 + j + 1) 5)) ++
              [95, 100] := by
            rw [progressPayloads, hfr, List.filterMap_append, List.filterMap_append,
              List.filterMap_append, hH_pay, hS_pay, hA_pay, hk5, ht_pay, hs, ha]
            simp
          have hpe : (runFrames o depth).filterMap progEvent =
              ((List.range 5).map fun j =>
                min 100 (max 0 (searchProgress (0 + j + 2) (5 + 5)))) ++
              ((List.range 5).map fun j =>
                min 100 (max 0 (analysisProgress (0 + j + 1) 5))) ++
              [95, 100, 100] := by
            rw [hfr, List.filterMap_append, List.filterMap_append,
              List.filterMap_append, hH_ev, hS_ev, hA_ev, hk5, ht_ev, hs, ha]
            simp
          exact ⟨by rw [hpp]; exact chain'_of_leChainInt _ (by decide),
          hmono (by rw [hpe]; exact chain'_of_leChainInt _ (by decide))⟩

theorem c5_progress_monotone_witness :
    (∀ plan, oracleAnalysis2Fail.planOutcome = .ok plan →
      plan.searches.length = 5 ∧ plan.analyses.length = 5) ∧
    List.Chain' (· ≤ ·) (progressPayloads (runFrames oracleAnalysis2Fail "basic")) :=
  ⟨fun plan hp => by cases hp; exact ⟨rfl, rfl⟩,
   (c5_progress_monotone oracleAnalysis2Fail "basic"
     (fun plan hp => by cases hp; exact ⟨rfl, rfl⟩)).1⟩

theorem no_chunk_front (o : Oracle) (depth : String) (plan : ResearchPlan) :
    ∀ f ∈ runHead plan ++
        searchFrames o depth (5 + plan.analyses.length) 0 plan.searches ++
        analysisFrames o plan.analyses.length 0 plan.analyses ++
        [reportStart, reportDone, Frame.progress 95],
      isReportChunk f = false := by
  intro f hf
  simp only [List.append_assoc, List.mem_append] at hf
  rcases hf with h | h | h | h
  · exact runHead_no_chunk plan f h
  · exact searchFrames_no_chunk o depth _ plan.searches 0 f h
  · exact analysisFrames_no_chunk o plan.analyses.length plan.analyses 0 f h
  · simp only [reportStart, reportDone, List.mem_cons, List.not_mem_nil, or_false] at h
    rcases h with h | h | h <;> (subst h; rfl)

/-- C10: in every successful run, the `step_complete` frame for step 12 (the
report step, status `completed`) is emitted strictly before every `report_chunk`
frame: the route marks the report step completed right after the `streamText`
call returns, before forwarding the first text fragment. -/
theorem c10_report_complete_before_chunks (o : Oracle) (depth : String)
    (plan : ResearchPlan)
    (hplan : o.planOutcome = .ok plan)
    (hok : ∀ m, m < plan.analyses.length → ∃ r, o.analyzeOutcome m = .ok r)
    (hrc : o.reportCall = .ok ())
    (hse : o.streamEnd = .ok ()) :
    ∀ (n : Nat) (c : String), (runFrames o depth)[n]? = some (Frame.report_chunk c) →
      ∃ m : Nat, m < n ∧ (runFrames o depth)[m]? = some reportDone := by
  have habort : analysisAbort o 0 plan.analyses = none := by
    apply analysisAbort_none_of_ok
    intro m hm
    simpa using hok m hm
  have hdec := runResearch_success o depth plan hplan habort hrc hse
  set P : List Frame := runHead plan ++
      searchFrames o depth (5 + plan.analyses.length) 0 plan.searches ++
      analysisFrames o plan.analyses.length 0 plan.analyses with hP
  have hfr : runFrames o depth =
      (P ++ [reportStart, reportDone, Frame.progress 95]) ++
      (o.reportChunks.map Frame.report_chunk ++
       [Frame.report_complete (String.join o.reportChunks) (runAllSources o depth plan),
        Frame.progress 100, Frame.status_change .complete]) := by
    simp only [runFrames, hdec, hP]
    simp [List.append_assoc]
  have hQlen : (P ++ [reportStart, reportDone, Frame.progress 95]).length =
      P.length + 3 := by simp
  have hrd : (runFrames o depth)[P.length + 1]? = some reportDone := by
    rw [hfr, List.getElem?_append_left (by omega : P.length + 1 <
      (P ++ [reportStart, reportDone, Frame.progress 95]).length),
      List.getElem?_append_right (Nat.le_add_right P.length 1)]
    simp
  intro n c hn
  have hnge : P.length + 3 ≤ n := by
    by_contra hcon
    push_neg at hcon
    rw [hfr, List.getElem?_append_left (by omega : n <
      (P ++ [reportStart, reportDone, Frame.progress 95]).length)] at hn
    have hmem : Frame.report_chunk c ∈ P ++ [reportStart, reportDone, Frame.progress 95] :=
      List.getElem?_mem hn
    have hfalse := no_chunk_front o depth plan (Frame.report_chunk c)
      (by simpa only [hP, List.append_assoc] using hmem)
    simp [isReportChunk] at hfalse
  exact ⟨P.length + 1, by omega, hrd⟩

theorem c10_report_complete_before_chunks_witness :
    (runFrames oracleOk "basic")[36]? = some (Frame.report_chunk "Hello ") ∧
    ∃ m : Nat, m < 36 ∧ (runFrames oracleOk "basic")[m]? = some reportDone :=
  ⟨by decide,
   c10_report_complete_before_chunks oracleOk "basic" plan5 rfl
     (fun _m _ => ⟨anaResOne, rfl⟩) rfl rfl 36 "Hello " (by decide)⟩

/-- C2 counterexample: in a run that completed live but collected zero sources
(every search empty, every analysis without key sources), live folding yields
`finalSources = some []` while the Recovery Reconstructor yields
`finalSources = none` (its `citation_sources.length > 0` guard), so the two view
states are not field-for-field equal on `finalSources`. -/
theorem c2_counterexample :
    (liveState oracleNoSources "basic").finalSources = some [] ∧
    (recoveredState oracleNoSources "basic").finalSources = none ∧
    ¬((recoveredState oracleNoSources "basic").progress =
        (liveState oracleNoSources "basic").progress ∧
      (recoveredState oracleNoSources "basic").status =
        (liveState oracleNoSources "basic").status ∧
      (recoveredState oracleNoSources "basic").finalSources =
        (liveState oracleNoSources "basic").finalSources) :=
  ⟨by decide, by decide, by decide⟩

theorem fold_reportTail_fields (s : DeepSearchState) (full : String)
    (srcs : List Source) :
    (foldFrames s [Frame.report_complete full srcs, Frame.progress 100,
      Frame.status_change .complete]).progress = 100 ∧
    (foldFrames s [Frame.report_complete full srcs, Frame.progress 100,
      Frame.status_change .complete]).status = .complete ∧
    (foldFrames s [Frame.report_complete full srcs, Frame.progress 100,
      Frame.status_change .complete]).finalSources = some srcs := by
  refine ⟨?_, ?_, ?_⟩ <;> simp [foldFrames, handleServerEvent]

/-- C2 amended: for every run that completed live and persisted its row, the
Recovery Reconstructor applied to the final persisted row produces a view state
whose `progress` (100) and `status` (`complete`) equal the live-folded ones; the
`finalSources` also agree whenever the run collected at least one citation
source. (When zero sources were collected they differ: live folding stores
`some []` while recovery stores `none` — see the counterexample.) -/
theorem c2_amended (o : Oracle) (depth : String) (plan : ResearchPlan)
    (hplan : o.planOutcome = .ok plan)
    (hins : o.insertOk = true)
    (hok : ∀ m, m < plan.analyses.length → ∃ r, o.analyzeOutcome m = .ok r)
    (hrc : o.reportCall = .ok ())
    (hse : o.streamEnd = .ok ())
    (hne : runAllSources o depth plan ≠ []) :
    (recoveredState o depth).progress = (liveState o depth).progress ∧
    (recoveredState o depth).status = (liveState o depth).status ∧
    (recoveredState o depth).finalSources = (liveState o depth).finalSources ∧
    (liveState o depth).progress = 100 ∧
    (liveState o depth).status = .complete ∧
    (liveState o depth).finalSources = some (runAllSources o depth plan) := by
  have habort : analysisAbort o 0 plan.analyses = none := by
    apply analysisAbort_none_of_ok
    intro m hm
    simpa using hok m hm
  have hdec := runResearch_success o depth plan hplan habort hrc hse
  -- live side
  have hsplit : runFrames o depth =
      (runHead plan ++ searchFrames o depth (5 + plan.analyses.length) 0 plan.searches ++
        analysisFrames o plan.analyses.length 0 plan.analyses ++
        (reportStart :: reportDone :: Frame.progress 95 ::
          o.reportChunks.map Frame.report_chunk)) ++
      [Frame.report_complete (String.join o.reportChunks) (runAllSources o depth plan),
       Frame.progress 100, Frame.status_change .complete] := by
    simp only [runFrames, hdec]
    simp [List.append_assoc]
  have hlive := fold_reportTail_fields
    (foldFrames initialDeepSearchState
      (runHead plan ++ searchFrames o depth (5 + plan.analyses.length) 0 plan.searches ++
        analysisFrames o plan.analyses.length 0 plan.analyses ++
        (reportStart :: reportDone :: Frame.progress 95 ::
          o.reportChunks.map Frame.report_chunk)))
    (String.join o.reportChunks) (runAllSources o depth plan)
  have hliveEq : liveState o depth =
      foldFrames (foldFrames initialDeepSearchState
        (runHead plan ++ searchFrames o depth (5 + plan.analyses.length) 0 plan.searches ++
          analysisFrames o plan.analyses.length 0 plan.analyses ++
          (reportStart :: reportDone :: Frame.progress 95 ::
            o.reportChunks.map Frame.report_chunk)))
        [Frame.report_complete (String.join o.reportChunks) (runAllSources o depth plan),
         Frame.progress 100, Frame.status_change .complete] := by
    rw [liveState, hsplit, foldFrames_append]
  have hliveP : (liveState o depth).progress = 100 := by rw [hliveEq]; exact hlive.1
  have hliveS : (liveState o depth).status = .complete := by rw [hliveEq]; exact hlive.2.1
  have hliveF : (liveState o depth).finalSources = some (runAllSources o depth plan) := by
    rw [hliveEq]; exact hlive.2.2
  -- recovered side
  have h1 : ((runSearchOut o depth plan).row).isSome := by
    unfold runSearchOut
    apply searchPhase_row_isSome
    simp [initialRow, hins]
  have h2 : ((runAnalysisOut o depth plan).row).isSome := by
    unfold runAnalysisOut
    exact analysisPhase_row_isSome _ _ _ _ _ _ _ h1
  obtain ⟨r, hr⟩ := Option.isSome_iff_exists.mp h2
  have hrow : runRow o depth = some
      { r with content := String.join o.reportChunks,
               research_status := some .complete, research_progress := some 100,
               research_plan_links := some
                 { (runAnalysisOut o depth plan).snap with completion_rate := 100 },
               citation_sources := some ((runAllSources o depth plan).enum.map fun p =>
                 mkCitation o.host p.1 p.2) } := by
    simp [runRow, hdec, hr]
  have hlenpos : 0 < ((runAllSources o depth plan).enum.map fun p =>
      mkCitation o.host p.1 p.2).length := by
    simp only [List.length_map, List.enum_length]
    exact List.length_pos.mpr hne
  have hrel : ∀ s ∈ runAllSources o depth plan, s.relevance ≠ 0 := by
    unfold runAllSources
    exact collectAllSources_rel _ _
  have hrt := citation_roundtrip o.host (runAllSources o depth plan) hrel
  have hrecF : (recoveredState o depth).finalSources =
      some (runAllSources o depth plan) := by
    rw [recoveredState, hrow]
    simp only [recoverFromDatabase]
    simp only [List.length_map, List.enum_length]
    rw [if_pos (by simpa using hlenpos)]
    simpa using hrt
  have hrecP : (recoveredState o depth).progress = 100 := by
    rw [recoveredState, hrow]
    simp [recoverFromDatabase]
  have hrecS : (recoveredState o depth).status = .complete := by
    rw [recoveredState, hrow]
    simp [recoverFromDatabase]
  exact ⟨by rw [hrecP, hliveP], by rw [hrecS, hliveS], by rw [hrecF, hliveF],
    hliveP, hliveS, hliveF⟩

theorem c2_amended_witness :
    oracleOk.planOutcome = .ok plan5 ∧ oracleOk.insertOk = true ∧
    runAllSources oracleOk "basic" plan5 ≠ [] ∧
    ((recoveredState oracleOk "basic").finalSources =
      (liveState oracleOk "basic").finalSources) :=
  ⟨rfl, rfl, by decide,
   (c2_amended oracleOk "basic" plan5 rfl rfl (fun _m _ => ⟨anaResOne, rfl⟩) rfl rfl
     (by decide)).2.2.1⟩

/-- C3 counterexample: folding the frame sequence of a concrete successful run a
second time does not reproduce the same state — every `step_start` frame appends
to `updates` unconditionally, so the updates list doubles in length on replay. -/
theorem c3_counterexample :
    foldFrames (foldFrames initialDeepSearchState (runFrames oracleOk "basic"))
        (runFrames oracleOk "basic") ≠
      foldFrames initialDeepSearchState (runFrames oracleOk "basic") := by
  intro h
  have h2 : (foldFrames (foldFrames initialDeepSearchState (runFrames oracleOk "basic"))
        (runFrames oracleOk "basic")).updates.length =
      (foldFrames initialDeepSearchState (runFrames oracleOk "basic")).updates.length := by
    rw [h]
  revert h2
  decide

/-- C3 amended: replay of a complete frame sequence is not idempotent on the
whole state, but it is on every last-writer field. For any sequence shaped like
a completed run (a `report_complete` frame followed only by frames that do not
touch the report text), refolding the sequence over its own fold preserves
`progress`, `status`, `finalSources`, `researchPlan`, `error`, `isActive`,
`planLinks` and `result`, while the `updates` list grows by exactly the number
of `step_start` frames in the sequence. -/
theorem c3_amended (l l₁ l₂ : List Frame) (full : String) (srcs : List Source)
    (hshape : l = l₁ ++ Frame.report_complete full srcs :: l₂)
    (hres : ∀ f ∈ l₂, touchesResult f = false) :
    (foldFrames (foldFrames initialDeepSearchState l) l).progress =
      (foldFrames initialDeepSearchState l).progress ∧
    (foldFrames (foldFrames initialDeepSearchState l) l).status =
      (foldFrames initialDeepSearchState l).status ∧
    (foldFrames (foldFrames initialDeepSearchState l) l).finalSources =
      (foldFrames initialDeepSearchState l).finalSources ∧
    (foldFrames (foldFrames initialDeepSearchState l) l).researchPlan =
      (foldFrames initialDeepSearchState l).researchPlan ∧
    (foldFrames (foldFrames initialDeepSearchState l) l).error =
      (foldFrames initialDeepSearchState l).error ∧
    (foldFrames (foldFrames initialDeepSearchState l) l).isActive =
      (foldFrames initialDeepSearchState l).isActive ∧
    (foldFrames (foldFrames initialDeepSearchState l) l).planLinks =
      (foldFrames initialDeepSearchState l).planLinks ∧
    (foldFrames (foldFrames initialDeepSearchState l) l).result =
      (foldFrames initialDeepSearchState l).result ∧
    (foldFrames (foldFrames initialDeepSearchState l) l).updates.length =
      (foldFrames initialDeepSearchState l).updates.length + l.countP isStepStart := by
  refine ⟨refold_field _ _ handle_progress l _, refold_field _ _ handle_status l _,
    refold_field _ _ handle_finalSources l _, refold_field _ _ handle_researchPlan l _,
    refold_field _ _ handle_error l _, refold_field _ _ handle_isActive l _,
    foldFrames_planLinks l _, ?_, foldFrames_updates_length l _⟩
  rw [hshape, foldFrames_result_set l₁ l₂ full srcs _ hres,
    foldFrames_result_set l₁ l₂ full srcs _ hres]

theorem c3_amended_witness :
    runFrames oracleOk "basic" =
      (runFrames oracleOk "basic").take 38 ++
        Frame.report_complete "Hello world" (runAllSources oracleOk "basic" plan5) ::
          [Frame.progress 100, Frame.status_change .complete] ∧
    (foldFrames (foldFrames initialDeepSearchState (runFrames oracleOk "basic"))
        (runFrames oracleOk "basic")).updates.length =
      (foldFrames initialDeepSearchState
        (runFrames oracleOk "basic")).updates.length +
        (runFrames oracleOk "basic").countP isStepStart :=
  ⟨by decide,
   (c3_amended (runFrames oracleOk "basic") ((runFrames oracleOk "basic").take 38)
     [Frame.progress 100, Frame.status_change .complete] "Hello world"
     (runAllSources oracleOk "basic" plan5) (by decide)
     (by decide)).2.2.2.2.2.2.2.2⟩

end DeuzChat
